import Mathlib

/-!
# Roombox booking–payment–room lifecycle: a shallow embedding

A shallow embedding of the booking/payment/room lifecycle of the
`roombox-fyp` backend (`app/api/v1/booking.py`, `app/api/v1/rooms.py`,
`app/utils/esewa.py`, `app/models/*.py`), together with proofs and
refutations of the specification's claims about it.

Modelling conventions:

* Monetary amounts (`Float` columns in the source) are modelled as `Nat`;
  Python's `x or 0` on a nullable amount becomes `Option.getD 0`, and the
  check `total <= 0` becomes `total = 0`.
* Timestamps (`datetime.utcnow()`) are modelled as a `Nat` clock value
  passed to each operation that reads the clock.
* `uuid.uuid4()` results and ISO date parsing are nondeterministic or
  external: the generated transaction uuid is an explicit argument, and
  `datetime.fromisoformat` is an explicit `String → Option Nat` argument.
* HMAC-SHA256 + base64 (`hmac.new(...)`/`base64.b64encode` in
  `esewa.py`) is a fixed but opaque keyed function, passed as an explicit
  argument `hmacB64 : String → String → String` (key, message ↦ tag);
  collision-freedom, where needed, is an explicit hypothesis.
* SQLAlchemy queries `filter(...).first()` become `List.find?`; mutation
  of a fetched row becomes `updFirst`, rewriting the first row with that
  primary key; `if room: room.status = x` is the same update (a no-op
  when no row matches).  Error responses returned before any mutation
  become `Except.error` on the unchanged state.
-/

namespace Roombox

/-- `RoomStatus` from `app/models/room.py`. -/
inductive RoomStatus where
  | available
  | occupied
  | reserved
  | underMaintenance
  | inactive
  deriving DecidableEq, Repr

/-- `BookingStatus` from `app/models/booking.py`. -/
inductive BookingStatus where
  | pending
  | approved
  | rejected
  | cancelled
  | completed
  deriving DecidableEq, Repr

/-- `PaymentStatus` from `app/models/booking.py`. -/
inductive PaymentStatus where
  | pending
  | completed
  | failed
  | refunded
  deriving DecidableEq, Repr

/-- `TenancyStatus` from `app/models/booking.py`. -/
inductive TenancyStatus where
  | pending
  | active
  | completed
  | terminated
  deriving DecidableEq, Repr

/-- The fields of `User` (`app/models/user.py`) the lifecycle reads. -/
structure User where
  id : Nat
  userType : String
  deriving DecidableEq, Repr

/-- The fields of `Room` (`app/models/room.py`) the lifecycle reads or
writes.  Listing fields irrelevant to every claim (title, address,
amenities, images, …) are omitted. -/
structure Room where
  id : Nat
  ownerId : Nat
  pricePerMonth : Nat
  securityDeposit : Option Nat
  advancePayment : Option Nat
  status : RoomStatus
  deriving DecidableEq, Repr

/-- `Booking` from `app/models/booking.py`.  `startDate`/`endDate` hold the
parsed datetimes; `tenancyStatus` is nullable in the schema. -/
structure Booking where
  id : Nat
  tenantId : Nat
  landlordId : Nat
  roomId : Nat
  startDate : Nat
  endDate : Option Nat
  monthlyRent : Nat
  securityDeposit : Nat
  advancePayment : Nat
  status : BookingStatus
  tenancyStatus : Option TenancyStatus
  tenantMessage : Option String
  landlordResponse : Option String
  approvedAt : Option Nat
  deriving DecidableEq, Repr

/-- `Payment` from `app/models/booking.py`. -/
structure Payment where
  id : Nat
  bookingId : Nat
  tenantId : Nat
  landlordId : Nat
  amount : Nat
  paymentType : String
  paymentMonth : Option String
  transactionUuid : String
  esewaRefId : Option String
  esewaSignature : Option String
  status : PaymentStatus
  completedAt : Option Nat
  deriving DecidableEq, Repr

/-- The persistent state the lifecycle endpoints read and write: the four
tables plus the id sequences the database assigns on insert. -/
structure DB where
  users : List User
  rooms : List Room
  bookings : List Booking
  payments : List Payment
  nextRoomId : Nat
  nextBookingId : Nat
  nextPaymentId : Nat
  deriving DecidableEq, Repr

/-- The typed error responses the endpoints return before mutating
anything: 404, 400 and 403 with their message strings. -/
inductive ApiError where
  | notFound (msg : String)
  | badRequest (msg : String)
  | forbidden (msg : String)
  deriving DecidableEq, Repr

/-- Equality of endpoint results is decidable (needed to evaluate the
concrete scenarios). -/
instance : DecidableEq (Except ApiError DB) := fun x y =>
  match x, y with
  | .ok a, .ok b =>
    if h : a = b then isTrue (by rw [h]) else isFalse (by simp [h])
  | .error a, .error b =>
    if h : a = b then isTrue (by rw [h]) else isFalse (by simp [h])
  | .ok _, .error _ => isFalse (by simp)
  | .error _, .ok _ => isFalse (by simp)

/-! ## eSewa payment gateway adapter (`app/utils/esewa.py`) -/

/-- `EsewaPayment.TEST_SECRET_KEY`. -/
def TEST_SECRET_KEY : String := "8gBm/:&EnhH.1/q"

/-- `EsewaPayment.TEST_PRODUCT_CODE`. -/
def TEST_PRODUCT_CODE : String := "EPAYTEST"

/-- The canonical string both `generate_signature` and `verify_signature`
build:
`total_amount=<amt>,transaction_uuid=<id>,product_code=<code>`. -/
def stringToSign (totalAmount : Nat) (transactionUuid productCode : String) : String :=
  "total_amount=" ++ toString totalAmount ++
    ",transaction_uuid=" ++ transactionUuid ++
    ",product_code=" ++ productCode

/-- `EsewaPayment.generate_signature`: the base64-encoded HMAC-SHA256 tag
of the canonical string under the secret key, with the HMAC passed in as
`hmacB64`. -/
def generate_signature (hmacB64 : String → String → String) (secretKey : String)
    (totalAmount : Nat) (transactionUuid productCode : String) : String :=
  hmacB64 secretKey (stringToSign totalAmount transactionUuid productCode)

/-- `EsewaPayment.verify_signature`: rebuild the canonical string from the
verification fields, recompute the tag, compare with the received
signature. -/
def verify_signature (hmacB64 : String → String → String) (secretKey : String)
    (receivedSignature : String)
    (totalAmount : Nat) (transactionUuid productCode : String) : Bool :=
  receivedSignature == generate_signature hmacB64 secretKey totalAmount
    transactionUuid productCode

/-! ### Decimal rendering is injective

The canonical string interpolates the amount with `str(...)`, i.e.
`Nat.repr` in the model.  Distinct amounts must yield distinct canonical
strings for the tamper-rejection claims, so we prove `Nat.repr`
injective via an accumulator-free specification of `Nat.toDigitsCore`. -/

/-- Decimal digit rendering of `n`, most significant digit first: the
accumulator-free specification of `Nat.toDigitsCore` at base 10. -/
def decimalDigits (n : Nat) : List Char :=
  if n / 10 = 0 then [Nat.digitChar (n % 10)]
  else decimalDigits (n / 10) ++ [Nat.digitChar (n % 10)]
decreasing_by
  exact Nat.div_lt_self (by omega) (by omega)

theorem decimalDigits_def (n : Nat) : decimalDigits n =
    if n / 10 = 0 then [Nat.digitChar (n % 10)]
    else decimalDigits (n / 10) ++ [Nat.digitChar (n % 10)] := by
  rw [decimalDigits]

theorem decimalDigits_ne_nil (n : Nat) : decimalDigits n ≠ [] := by
  rw [decimalDigits_def]
  by_cases h : n / 10 = 0 <;> simp [h]

theorem toDigitsCore_eq_decimalDigits :
    ∀ (f n : Nat) (ds : List Char), n < f →
      Nat.toDigitsCore 10 f n ds = decimalDigits n ++ ds := by
  intro f
  induction f with
  | zero => intro n ds h; omega
  | succ f ih =>
    intro n ds h
    rw [decimalDigits_def]
    by_cases h10 : n / 10 = 0
    · simp [Nat.toDigitsCore, h10]
    · have hlt : n / 10 < f := by omega
      simp only [Nat.toDigitsCore, h10, if_false]
      rw [ih (n / 10) (Nat.digitChar (n % 10) :: ds) hlt]
      simp [List.append_assoc]

theorem repr_eq_decimalDigits (n : Nat) :
    Nat.repr n = (decimalDigits n).asString := by
  rw [Nat.repr, Nat.toDigits,
    toDigitsCore_eq_decimalDigits (n + 1) n [] (Nat.lt_succ_self n), List.append_nil]

theorem digitChar_inj_lt10 : ∀ a < 10, ∀ b < 10,
    Nat.digitChar a = Nat.digitChar b → a = b := by decide

theorem decimalDigits_inj : ∀ m n : Nat, decimalDigits m = decimalDigits n → m = n := by
  intro m
  induction m using Nat.strong_induction_on with
  | _ m ih =>
    intro n h
    rw [decimalDigits_def m, decimalDigits_def n] at h
    by_cases hm : m / 10 = 0 <;> by_cases hn : n / 10 = 0
    · rw [if_pos hm, if_pos hn] at h
      have hmod := digitChar_inj_lt10 (m % 10) (by omega) (n % 10) (by omega)
        (List.cons.injEq _ _ _ _ ▸ h).1
      omega
    · rw [if_pos hm, if_neg hn] at h
      exfalso
      have hlen := congrArg List.length h
      have hpos := List.length_pos.mpr (decimalDigits_ne_nil (n / 10))
      simp only [List.length_append, List.length_cons, List.length_nil] at hlen
      omega
    · rw [if_neg hm, if_pos hn] at h
      exfalso
      have hlen := congrArg List.length h
      have hpos := List.length_pos.mpr (decimalDigits_ne_nil (m / 10))
      simp only [List.length_append, List.length_cons, List.length_nil] at hlen
      omega
    · rw [if_neg hm, if_neg hn] at h
      have hrev := congrArg List.reverse h
      simp only [List.reverse_append, List.reverse_singleton,
        List.singleton_append] at hrev
      have hhead := (List.cons.injEq _ _ _ _ ▸ hrev).1
      have htail := (List.cons.injEq _ _ _ _ ▸ hrev).2
      have hdiv : m / 10 = n / 10 :=
        ih (m / 10) (Nat.div_lt_self (by omega) (by omega)) (n / 10)
          (List.reverse_injective htail)
      have hmod := digitChar_inj_lt10 (m % 10) (by omega) (n % 10) (by omega) hhead
      omega

theorem natRepr_injective : Function.Injective Nat.repr := by
  intro m n h
  rw [repr_eq_decimalDigits, repr_eq_decimalDigits] at h
  exact decimalDigits_inj m n (by
    have := congrArg String.data h
    simpa [List.asString] using this)

theorem natToString_injective : Function.Injective (toString : Nat → String) :=
  natRepr_injective

/-- Distinct amounts produce distinct canonical strings (same uuid, same
product code). -/
theorem stringToSign_inj_amount {a b : Nat} {u c : String}
    (h : stringToSign a u c = stringToSign b u c) : a = b := by
  unfold stringToSign at h
  have hd := congrArg String.data h
  simp only [String.data_append, List.append_assoc] at hd
  have h1 := List.append_cancel_left hd
  have h2 := List.append_cancel_right h1
  exact natToString_injective (String.ext h2)

/-! ## Query and update helpers (SQLAlchemy `filter(...).first()` / row mutation)

An endpoint fetches a row with `filter(...).first()` and mutates that one
object; committing persists the change to that row.  `updFirst` is this
update: rewrite the first row satisfying the predicate, leave the rest. -/

/-- Rewrite the first element satisfying `p` by `f`; leave everything
else. -/
def updFirst {α : Type} (p : α → Bool) (f : α → α) : List α → List α
  | [] => []
  | x :: xs => if p x then f x :: xs else x :: updFirst p f xs

theorem updFirst_of_find?_eq_none {α : Type} {p : α → Bool} {l : List α}
    (h : l.find? p = none) (f : α → α) : updFirst p f l = l := by
  induction l with
  | nil => rfl
  | cons x xs ih =>
    rw [List.find?_cons] at h
    cases hx : p x with
    | true => rw [hx] at h; exact absurd h (by simp)
    | false => rw [hx] at h; simp [updFirst, hx, ih h]

theorem find?_updFirst_self {α : Type} {p : α → Bool} {l : List α} {x : α}
    (h : l.find? p = some x) {f : α → α} (hf : ∀ y, p (f y) = p y) :
    (updFirst p f l).find? p = some (f x) := by
  induction l with
  | nil => simp at h
  | cons a as ih =>
    rw [List.find?_cons] at h
    cases ha : p a with
    | true =>
      rw [ha] at h
      simp only [Option.some.injEq] at h
      subst h
      simp [updFirst, ha, List.find?_cons, hf]
    | false =>
      rw [ha] at h
      simp [updFirst, ha, List.find?_cons, ih h]

theorem updFirst_updFirst {α : Type} {p : α → Bool} {f g : α → α}
    (hf : ∀ y, p (f y) = p y) (l : List α) :
    updFirst p g (updFirst p f l) = updFirst p (fun y => g (f y)) l := by
  induction l with
  | nil => rfl
  | cons x xs ih =>
    cases hx : p x with
    | true => simp [updFirst, hx, hf]
    | false => simp [updFirst, hx, ih]

theorem map_updFirst_congr {α β : Type} {p : α → Bool} {f g : α → α}
    {m : α → β} (h : ∀ y, m (f y) = m (g y)) (l : List α) :
    (updFirst p f l).map m = (updFirst p g l).map m := by
  induction l with
  | nil => rfl
  | cons x xs ih =>
    cases hx : p x with
    | true => simp [updFirst, hx, h]
    | false => simp [updFirst, hx, ih]

theorem map_updFirst_of_stable {α β : Type} {p : α → Bool} {f : α → α}
    {m : α → β} (h : ∀ y, m (f y) = m y) (l : List α) :
    (updFirst p f l).map m = l.map m := by
  induction l with
  | nil => rfl
  | cons x xs ih =>
    cases hx : p x with
    | true => simp [updFirst, hx, h]
    | false => simp [updFirst, hx, ih]

/-- Updating a row in a key-preserving way keeps the key column
duplicate-free. -/
theorem nodup_map_updFirst {α : Type} {p : α → Bool} {f : α → α}
    {m : α → Nat} (hf : ∀ y, m (f y) = m y) {l : List α}
    (h : (l.map m).Nodup) : ((updFirst p f l).map m).Nodup := by
  rw [map_updFirst_of_stable hf]
  exact h

theorem updFirst_congr {α : Type} {p : α → Bool} {f g : α → α}
    (h : ∀ y, f y = g y) (l : List α) : updFirst p f l = updFirst p g l := by
  induction l with
  | nil => rfl
  | cons a as ih => by_cases ha : p a <;> simp [updFirst, ha, h, ih]

theorem updFirst_twice {α : Type} {p : α → Bool} {f : α → α}
    (hp : ∀ y, p (f y) = p y) (hf : ∀ y, f (f y) = f y) (l : List α) :
    updFirst p f (updFirst p f l) = updFirst p f l := by
  rw [updFirst_updFirst hp]
  exact updFirst_congr hf l

theorem map_updFirst_twice {α β : Type} {p : α → Bool} {f g : α → α} {m : α → β}
    (hp : ∀ y, p (f y) = p y) (hm : ∀ y, m (g (f y)) = m (f y)) (l : List α) :
    (updFirst p g (updFirst p f l)).map m = (updFirst p f l).map m := by
  rw [updFirst_updFirst hp]
  exact map_updFirst_congr hm l

theorem mem_updFirst {α : Type} {p : α → Bool} {f : α → α} {l : List α}
    {x : α} (h : x ∈ updFirst p f l) :
    x ∈ l ∨ ∃ y, y ∈ l ∧ p y = true ∧ x = f y := by
  induction l with
  | nil => simp [updFirst] at h
  | cons a as ih =>
    by_cases ha : p a
    · simp only [updFirst, if_pos ha, List.mem_cons] at h
      rcases h with h | h
      · exact Or.inr ⟨a, List.mem_cons_self a as, ha, h⟩
      · exact Or.inl (List.mem_cons_of_mem a h)
    · simp only [updFirst, if_neg ha, List.mem_cons] at h
      rcases h with h | h
      · exact Or.inl (h ▸ List.mem_cons_self a as)
      · rcases ih h with h' | ⟨y, hy, hpy, hxy⟩
        · exact Or.inl (List.mem_cons_of_mem a h')
        · exact Or.inr ⟨y, List.mem_cons_of_mem a hy, hpy, hxy⟩

theorem mem_updFirst_find? {α : Type} {p : α → Bool} {f : α → α} {l : List α}
    {x : α} (h : x ∈ updFirst p f l) :
    x ∈ l ∨ ∃ y, l.find? p = some y ∧ x = f y := by
  induction l with
  | nil => simp [updFirst] at h
  | cons a as ih =>
    by_cases ha : p a
    · simp only [updFirst, if_pos ha, List.mem_cons] at h
      rcases h with h | h
      · exact Or.inr ⟨a, by simp [List.find?_cons, ha], h⟩
      · exact Or.inl (List.mem_cons_of_mem a h)
    · simp only [updFirst, if_neg ha, List.mem_cons] at h
      rcases h with h | h
      · exact Or.inl (h ▸ List.mem_cons_self a as)
      · rcases ih h with h' | ⟨y, hy, hxy⟩
        · exact Or.inl (List.mem_cons_of_mem a h')
        · refine Or.inr ⟨y, ?_, hxy⟩
          rw [List.find?_cons]
          simp only [ha, if_false, Bool.false_eq_true]
          simpa using hy

/-- On a list whose keys are distinct, an element of the updated list that
carries the updated key must be the image of the matched row. -/
theorem mem_updFirst_of_key {α : Type} {key : α → Nat} {l : List α}
    (hnd : (l.map key).Nodup) {k : Nat} {f : α → α} {x : α}
    (hx : x ∈ updFirst (fun y => key y == k) f l) (hk : key x = k) :
    ∃ y, y ∈ l ∧ key y = k ∧ x = f y := by
  induction l with
  | nil => simp [updFirst] at hx
  | cons a as ih =>
    rw [List.map_cons, List.nodup_cons] at hnd
    by_cases ha : key a = k
    · simp only [updFirst, ha, beq_self_eq_true, if_pos, List.mem_cons] at hx
      rcases hx with hx | hx
      · exact ⟨a, List.mem_cons_self a as, ha, hx⟩
      · exfalso
        exact hnd.1 (ha ▸ hk ▸ List.mem_map_of_mem key hx)
    · have ha' : (key a == k) = false := by simpa using ha
      simp only [updFirst, ha', Bool.false_eq_true, if_false, List.mem_cons] at hx
      rcases hx with hx | hx
      · exact absurd (hx ▸ hk) ha
      · obtain ⟨y, hy, hyk, hxy⟩ := ih hnd.2 hx
        exact ⟨y, List.mem_cons_of_mem a hy, hyk, hxy⟩

/-- `db.query(Room).filter(Room.id == rid).first()`. -/
def DB.findRoom (s : DB) (rid : Nat) : Option Room :=
  s.rooms.find? (fun r => r.id == rid)

/-- `db.query(Booking).filter(Booking.id == bid).first()`. -/
def DB.findBooking (s : DB) (bid : Nat) : Option Booking :=
  s.bookings.find? (fun b => b.id == bid)

/-- `db.query(Payment).filter(Payment.transaction_uuid == u).first()`. -/
def DB.findPaymentByUuid (s : DB) (u : String) : Option Payment :=
  s.payments.find? (fun p => p.transactionUuid == u)

/-- `db.query(User).filter(User.user_type.in_([t1, t2])).first()` — the
placeholder "first user of this role" lookup the endpoints use instead of
the JWT principal. -/
def DB.findUserByTypes (s : DB) (t1 t2 : String) : Option User :=
  s.users.find? (fun u => u.userType == t1 || u.userType == t2)

/-- Mutate the fetched room row — the first row with primary key `rid` (a
no-op when absent, which is exactly the source's `if room: …`). -/
def DB.mapRoom (s : DB) (rid : Nat) (f : Room → Room) : DB :=
  { s with rooms := updFirst (fun r => r.id == rid) f s.rooms }

/-- Mutate the fetched booking row — the first row with primary key `bid`. -/
def DB.mapBooking (s : DB) (bid : Nat) (f : Booking → Booking) : DB :=
  { s with bookings := updFirst (fun b => b.id == bid) f s.bookings }

/-- Mutate the fetched payment row — the first row with primary key `pid`. -/
def DB.mapPayment (s : DB) (pid : Nat) (f : Payment → Payment) : DB :=
  { s with payments := updFirst (fun p => p.id == pid) f s.payments }

/-! ## Booking lifecycle endpoints (`app/api/v1/booking.py`) -/

/-- The body of `POST /booking/request` (`BookingRequest` in
`booking.py`). -/
structure BookingRequest where
  roomId : Nat
  startDate : String
  endDate : Option String
  tenantMessage : Option String
  deriving DecidableEq, Repr

/-- `create_booking_request` (`POST /booking/request`).  `parseDate`
stands for `datetime.fromisoformat` (with the `Z` fixup), `txnUuid` for
the `uuid.uuid4()` draw. -/
def create_booking_request (parseDate : String → Option Nat) (txnUuid : String)
    (d : BookingRequest) (s : DB) : Except ApiError DB :=
  match s.findUserByTypes "tenant" "TENANT" with
  | none => .error (.notFound "Tenant not found")
  | some tenant =>
    match s.findRoom d.roomId with
    | none => .error (.notFound "Room not found")
    | some room =>
      if room.status ≠ RoomStatus.available then
        .error (.badRequest "Room is not available for booking")
      else if s.bookings.any (fun b =>
          b.tenantId == tenant.id && b.roomId == d.roomId &&
            (b.status == BookingStatus.pending || b.status == BookingStatus.approved)) then
        .error (.badRequest "You already have a pending or approved booking request for this room")
      else
        let securityDeposit := room.securityDeposit.getD 0
        let advancePayment := room.advancePayment.getD 0
        let totalPayment := securityDeposit + advancePayment
        if totalPayment = 0 then
          .error (.badRequest "Security Deposit and Advance Payment are required for booking")
        else
          let startParsed := parseDate d.startDate
          let endParsed : Option (Option Nat) :=
            match d.endDate with
            | none => some none
            | some e => (parseDate e).map some
          match startParsed, endParsed with
          | some startDate, some endDate =>
            let newBooking : Booking :=
              { id := s.nextBookingId, tenantId := tenant.id, landlordId := room.ownerId,
                roomId := d.roomId, startDate := startDate, endDate := endDate,
                monthlyRent := room.pricePerMonth, securityDeposit := securityDeposit,
                advancePayment := advancePayment, status := .pending,
                tenancyStatus := some .pending, tenantMessage := d.tenantMessage,
                landlordResponse := none, approvedAt := none }
            let newPayment : Payment :=
              { id := s.nextPaymentId, bookingId := s.nextBookingId, tenantId := tenant.id,
                landlordId := room.ownerId, amount := totalPayment,
                paymentType := "booking_payment", paymentMonth := none,
                transactionUuid := txnUuid, esewaRefId := none, esewaSignature := none,
                status := .pending, completedAt := none }
            .ok { s.mapRoom d.roomId (fun r => { r with status := .reserved }) with
                  bookings := s.bookings ++ [newBooking],
                  payments := s.payments ++ [newPayment],
                  nextBookingId := s.nextBookingId + 1,
                  nextPaymentId := s.nextPaymentId + 1 }
          | _, _ => .error (.badRequest "Invalid date format")

/-- `approve_booking` (`PATCH /booking/{id}/approve`). -/
def approve_booking (now : Nat) (bookingId : Nat) (s : DB) : Except ApiError DB :=
  match s.findUserByTypes "landlord" "LANDLORD" with
  | none => .error (.notFound "Landlord not found")
  | some landlord =>
    match s.findBooking bookingId with
    | none => .error (.notFound "Booking not found")
    | some booking =>
      if booking.landlordId ≠ landlord.id then
        .error (.forbidden "Unauthorized")
      else if booking.status ≠ BookingStatus.pending then
        .error (.badRequest "Booking is already in a non-pending status")
      else
        let s1 := s.mapBooking bookingId (fun b =>
          { b with status := .approved, tenancyStatus := some .pending,
                   approvedAt := some now })
        .ok (s1.mapRoom booking.roomId (fun r => { r with status := .reserved }))

/-- `reject_booking` (`PATCH /booking/{id}/reject`).  `landlordResponse`
is the (optional, possibly empty — Python-falsy) response text; note the
source checks neither the booking's current status nor its tenancy. -/
def reject_booking (bookingId : Nat) (landlordResponse : Option String)
    (s : DB) : Except ApiError DB :=
  match s.findUserByTypes "landlord" "LANDLORD" with
  | none => .error (.notFound "Landlord not found")
  | some landlord =>
    match s.findBooking bookingId with
    | none => .error (.notFound "Booking not found")
    | some booking =>
      if booking.landlordId ≠ landlord.id then
        .error (.forbidden "Unauthorized")
      else
        let resp := match landlordResponse with
          | some r => if r = "" then "Booking rejected" else r
          | none => "Booking rejected"
        let s1 := s.mapBooking bookingId (fun b =>
          { b with status := .rejected, landlordResponse := some resp })
        .ok (s1.mapRoom booking.roomId (fun r => { r with status := .available }))

/-- `initiate_payment` (`POST /booking/{id}/payment/initiate`).  `txnUuid`
is the `uuid.uuid4()` draw. -/
def initiate_payment (txnUuid : String) (bookingId : Nat) (paymentType : String)
    (paymentMonth : Option String) (s : DB) : Except ApiError DB :=
  match s.findUserByTypes "tenant" "TENANT" with
  | none => .error (.notFound "Tenant not found")
  | some tenant =>
    match s.findBooking bookingId with
    | none => .error (.notFound "Booking not found")
    | some booking =>
      if booking.tenantId ≠ tenant.id then
        .error (.forbidden "Unauthorized")
      else if booking.status ≠ BookingStatus.approved then
        .error (.badRequest "Booking must be approved before payment")
      else if paymentType ≠ "rent" ∧ paymentType ≠ "security_deposit" ∧
          paymentType ≠ "advance" then
        .error (.badRequest "Invalid payment type")
      else
        let amount :=
          if paymentType = "rent" then booking.monthlyRent
          else if paymentType = "security_deposit" then booking.securityDeposit
          else booking.advancePayment
        if amount = 0 then
          .error (.badRequest "Invalid payment amount")
        else
          let newPayment : Payment :=
            { id := s.nextPaymentId, bookingId := bookingId, tenantId := tenant.id,
              landlordId := booking.landlordId, amount := amount,
              paymentType := paymentType, paymentMonth := paymentMonth,
              transactionUuid := txnUuid, esewaRefId := none, esewaSignature := none,
              status := .pending, completedAt := none }
          .ok { s with payments := s.payments ++ [newPayment],
                       nextPaymentId := s.nextPaymentId + 1 }

/-- `verify_payment` (`POST /booking/payment/verify`): look the payment up
by transaction uuid, check the signature against the *stored* amount,
mark the payment completed, then apply the derived booking/room effects
keyed on the payment type and the booking's current status. -/
def verify_payment (hmacB64 : String → String → String) (now : Nat)
    (transactionUuid refId signature : String) (s : DB) : Except ApiError DB :=
  match s.findPaymentByUuid transactionUuid with
  | none => .error (.notFound "Payment not found")
  | some payment =>
    if ¬ verify_signature hmacB64 TEST_SECRET_KEY signature payment.amount
        transactionUuid TEST_PRODUCT_CODE then
      .error (.badRequest "Invalid signature")
    else
      let s1 := s.mapPayment payment.id (fun p =>
        { p with status := .completed, esewaRefId := some refId,
                 esewaSignature := some signature, completedAt := some now })
      match s1.findBooking payment.bookingId with
      | none => .ok s1
      | some booking =>
        if payment.paymentType = "booking_payment" then
          .ok (s1.mapRoom booking.roomId (fun r => { r with status := .reserved }))
        else if payment.paymentType = "security_deposit" ∨
            payment.paymentType = "advance" then
          if booking.status = BookingStatus.approved then
            let s2 := s1.mapBooking booking.id (fun b =>
              { b with tenancyStatus := some .active })
            .ok (s2.mapRoom booking.roomId (fun r => { r with status := .occupied }))
          else .ok s1
        else .ok s1

/-! ## Room listing endpoints (`app/api/v1/rooms.py`)

Only the fields and effects the claims mention are modelled; the listing
fields dropped from `Room` above (title, address, amenities, images, …)
are likewise dropped from the requests. -/

/-- Python's `str.lower()` on the (ASCII) enum value strings.  (Core's
`String.toLower` is defined by well-founded recursion and does not
reduce; this equivalent map over the characters does.) -/
def lowerString (s : String) : String := ⟨s.data.map Char.toLower⟩

/-- `RoomType(value)` validation: the six lowercase enum values. -/
def roomTypeValid (t : String) : Bool :=
  ["single", "double", "shared", "apartment", "flat", "house"].contains (lowerString t)

/-- `FurnishingStatus(value)` validation. -/
def furnishingValid (f : String) : Bool :=
  ["furnished", "semi_furnished", "unfurnished"].contains (lowerString f)

/-- `RoomStatus(value)` validation: the five lowercase enum values. -/
def roomStatusFromString (t : String) : Option RoomStatus :=
  if t = "available" then some .available
  else if t = "occupied" then some .occupied
  else if t = "reserved" then some .reserved
  else if t = "under_maintenance" then some .underMaintenance
  else if t = "inactive" then some .inactive
  else none

/-- The modelled fields of `RoomCreateRequest`. -/
structure RoomCreateRequest where
  roomType : String
  furnishingStatus : Option String
  pricePerMonth : Nat
  securityDeposit : Option Nat
  advancePayment : Option Nat
  deriving DecidableEq, Repr

/-- `create_room` (`POST /rooms/create`): owner is the placeholder "first
landlord" lookup; a fresh room is inserted with `status=AVAILABLE`. -/
def create_room (d : RoomCreateRequest) (s : DB) : Except ApiError DB :=
  match s.findUserByTypes "landlord" "LANDLORD" with
  | none => .error (.badRequest "No landlord user found. Please register as a landlord first.")
  | some landlord =>
    if ¬ roomTypeValid d.roomType then
      .error (.badRequest "Invalid room type")
    else if (match d.furnishingStatus with
             | some f => f != "" && ! furnishingValid f
             | none => false) then
      .error (.badRequest "Invalid furnishing status")
    else
      let newRoom : Room :=
        { id := s.nextRoomId, ownerId := landlord.id,
          pricePerMonth := d.pricePerMonth, securityDeposit := d.securityDeposit,
          advancePayment := d.advancePayment, status := .available }
      .ok { s with rooms := s.rooms ++ [newRoom], nextRoomId := s.nextRoomId + 1 }

/-- `update_room` (`PUT /rooms/{id}`): the listing-edit endpoint.  It
overwrites the listing fields — among the modelled ones, the pricing
triple — and never touches `status`. -/
def update_room (roomId : Nat) (d : RoomCreateRequest) (s : DB) : Except ApiError DB :=
  match s.findRoom roomId with
  | none => .error (.notFound "Room listing not found")
  | some _ =>
    if ¬ roomTypeValid d.roomType then
      .error (.badRequest "Invalid room type")
    else if (match d.furnishingStatus with
             | some f => f != "" && ! furnishingValid f
             | none => false) then
      .error (.badRequest "Invalid furnishing status")
    else
      .ok (s.mapRoom roomId (fun r =>
        { r with pricePerMonth := d.pricePerMonth,
                 securityDeposit := d.securityDeposit,
                 advancePayment := d.advancePayment }))

/-- `update_room_status` (`PATCH /rooms/{id}/status`): with no requested
status (or an empty — Python-falsy — one) it toggles Available ↔
Occupied, otherwise it validates the string against `RoomStatus` and
writes whatever was requested. -/
def update_room_status (roomId : Nat) (newStatus : Option String)
    (s : DB) : Except ApiError DB :=
  match s.findRoom roomId with
  | none => .error (.notFound "Room listing not found")
  | some room =>
    let toggled : String :=
      if room.status = RoomStatus.available then "occupied" else "available"
    let ns : String :=
      match newStatus with
      | none => toggled
      | some str => if str = "" then toggled else str
    match roomStatusFromString (lowerString ns) with
    | none => .error (.badRequest "Invalid status")
    | some st => .ok (s.mapRoom roomId (fun r => { r with status := st }))

/-! ## Reachability

A state is reachable when it arises from an initial state (arbitrary
registered users, empty room/booking/payment tables) by any sequence of
the modelled endpoints, where a call that returns an error leaves the
state unchanged. -/

/-- The state an endpoint call leaves behind: the new state on success,
the old one on an error response. -/
def stepResult (s : DB) : Except ApiError DB → DB
  | .ok s' => s'
  | .error _ => s

/-- A lifecycle/room endpoint call together with its request data: one
constructor per modelled endpoint. -/
inductive Op where
  | createRoom (d : RoomCreateRequest)
  | updateRoom (roomId : Nat) (d : RoomCreateRequest)
  | updateRoomStatus (roomId : Nat) (newStatus : Option String)
  | createBooking (txnUuid : String) (d : BookingRequest)
  | approve (now bookingId : Nat)
  | reject (bookingId : Nat) (landlordResponse : Option String)
  | initiate (txnUuid : String) (bookingId : Nat) (paymentType : String)
      (paymentMonth : Option String)
  | verify (now : Nat) (transactionUuid refId signature : String)

/-- Dispatch an endpoint call on the state. -/
def applyOp (hmacB64 : String → String → String) (parseDate : String → Option Nat) :
    Op → DB → Except ApiError DB
  | .createRoom d, s => create_room d s
  | .updateRoom roomId d, s => update_room roomId d s
  | .updateRoomStatus roomId newStatus, s => update_room_status roomId newStatus s
  | .createBooking txnUuid d, s => create_booking_request parseDate txnUuid d s
  | .approve now bookingId, s => approve_booking now bookingId s
  | .reject bookingId landlordResponse, s => reject_booking bookingId landlordResponse s
  | .initiate txnUuid bookingId paymentType paymentMonth, s =>
      initiate_payment txnUuid bookingId paymentType paymentMonth s
  | .verify now transactionUuid refId signature, s =>
      verify_payment hmacB64 now transactionUuid refId signature s

/-- The state an endpoint call leaves behind: the new state on success,
the old one on an error response. -/
def runOp (hmacB64 : String → String → String) (parseDate : String → Option Nat)
    (o : Op) (s : DB) : DB :=
  stepResult s (applyOp hmacB64 parseDate o s)

/-- States reachable from an initial state (arbitrary registered users,
empty room/booking/payment tables) by endpoint calls drawn from
`allowed`.  `hmacB64` and `parseDate` are the ambient HMAC and
date-parsing functions; uuid draws, clock values and request bodies are
arbitrary. -/
inductive ReachableVia (hmacB64 : String → String → String)
    (parseDate : String → Option Nat) (allowed : Op → Prop) : DB → Prop where
  | init (users : List User) (nr nb np : Nat) :
      ReachableVia hmacB64 parseDate allowed
        { users := users, rooms := [], bookings := [], payments := [],
          nextRoomId := nr, nextBookingId := nb, nextPaymentId := np }
  | step {s : DB} (o : Op) (ho : allowed o) :
      ReachableVia hmacB64 parseDate allowed s →
      ReachableVia hmacB64 parseDate allowed (runOp hmacB64 parseDate o s)

/-- States reachable by arbitrary endpoint calls. -/
def Reachable (hmacB64 : String → String → String)
    (parseDate : String → Option Nat) (s : DB) : Prop :=
  ReachableVia hmacB64 parseDate (fun _ => True) s

/-! ## Concrete scenario fixtures

A two-user world (one tenant, one landlord), the identity HMAC (a
concrete collision-free instance of the opaque tag function) and a
constant date parser, used to instantiate claims and to build reachable
witness states. -/

/-- A concrete, collision-free instance of the opaque HMAC-tag function:
the tag is the message itself. -/
def idHmac : String → String → String := fun _ m => m

/-- A date parser accepting everything (the dates are irrelevant to every
claim). -/
def someParse : String → Option Nat := fun _ => some 0

def tenant0 : User := { id := 1, userType := "tenant" }

def landlord0 : User := { id := 2, userType := "landlord" }

def roomReq0 : RoomCreateRequest :=
  { roomType := "single", furnishingStatus := none, pricePerMonth := 12000,
    securityDeposit := some 5000, advancePayment := some 3000 }

def bookReq0 : BookingRequest :=
  { roomId := 1, startDate := "2025-01-01", endDate := none, tenantMessage := none }

/-- Initial state: both users registered, all tables empty. -/
def dbInit : DB :=
  { users := [tenant0, landlord0], rooms := [], bookings := [], payments := [],
    nextRoomId := 1, nextBookingId := 1, nextPaymentId := 1 }

/-- After `create_room`: room 1, owner landlord0, price 12000, deposit
5000, advance 3000, Available. -/
def dbRoom : DB := runOp idHmac someParse (.createRoom roomReq0) dbInit

/-- After `create_booking_request` on room 1 with transaction uuid
`uuid-1`: booking 1 Pending, payment 1 (8000, booking_payment) Pending,
room 1 Reserved. -/
def dbBooked : DB := runOp idHmac someParse (.createBooking "uuid-1" bookReq0) dbRoom

/-- After the landlord forces room 1 back to `available` through
`update_room_status` while booking 1 is still Pending. -/
def dbForcedAvailable : DB :=
  runOp idHmac someParse (.updateRoomStatus 1 (some "available")) dbBooked

/-- After `approve_booking` of booking 1 at time 10. -/
def dbApproved : DB := runOp idHmac someParse (.approve 10 1) dbBooked

/-- After `initiate_payment` of a security deposit for booking 1 with
transaction uuid `uuid-2`: payment 2 (5000, security_deposit) Pending. -/
def dbInitiated : DB :=
  runOp idHmac someParse (.initiate "uuid-2" 1 "security_deposit" none) dbApproved

/-- The correct gateway signature for payment 2 under `idHmac`. -/
def sdSig : String := generate_signature idHmac TEST_SECRET_KEY 5000 "uuid-2" TEST_PRODUCT_CODE

/-- After `verify_payment` of payment 2 at time 20: payment 2 Completed,
booking 1 tenancy Active, room 1 Occupied. -/
def dbActive : DB := runOp idHmac someParse (.verify 20 "uuid-2" "ref-1" sdSig) dbInitiated

/-- After `reject_booking` of booking 1 from `dbActive`: booking 1
Rejected with tenancy still Active, room 1 back to Available. -/
def dbRejectedActive : DB := runOp idHmac someParse (.reject 1 none) dbActive

theorem reach_dbInit : Reachable idHmac someParse dbInit :=
  ReachableVia.init [tenant0, landlord0] 1 1 1

theorem reach_dbRoom : Reachable idHmac someParse dbRoom :=
  ReachableVia.step _ trivial reach_dbInit

theorem reach_dbBooked : Reachable idHmac someParse dbBooked :=
  ReachableVia.step _ trivial reach_dbRoom

theorem reach_dbForcedAvailable : Reachable idHmac someParse dbForcedAvailable :=
  ReachableVia.step _ trivial reach_dbBooked

theorem reach_dbApproved : Reachable idHmac someParse dbApproved :=
  ReachableVia.step _ trivial reach_dbBooked

theorem reach_dbInitiated : Reachable idHmac someParse dbInitiated :=
  ReachableVia.step _ trivial reach_dbApproved

theorem reach_dbActive : Reachable idHmac someParse dbActive :=
  ReachableVia.step _ trivial reach_dbInitiated

theorem reach_dbRejectedActive : Reachable idHmac someParse dbRejectedActive :=
  ReachableVia.step _ trivial reach_dbActive

/-! ## Endpoint shape lemmas

One inversion lemma per endpoint: a call either returns an error and
leaves the state unchanged, or took a success path whose preconditions
and explicit result state the lemma exposes. -/

theorem createRoom_shape (d : RoomCreateRequest) (s : DB) :
    stepResult s (create_room d s) = s ∨
    ∃ landlord,
      s.findUserByTypes "landlord" "LANDLORD" = some landlord ∧
      stepResult s (create_room d s) =
        { s with
          rooms := s.rooms ++
            [{ id := s.nextRoomId, ownerId := landlord.id,
               pricePerMonth := d.pricePerMonth, securityDeposit := d.securityDeposit,
               advancePayment := d.advancePayment, status := .available }],
          nextRoomId := s.nextRoomId + 1 } := by
  unfold create_room
  repeat' split
  all_goals try exact Or.inl rfl
  rename_i landlord hl _ _
  exact Or.inr ⟨landlord, hl, rfl⟩

theorem updateRoom_shape (roomId : Nat) (d : RoomCreateRequest) (s : DB) :
    stepResult s (update_room roomId d s) = s ∨
    stepResult s (update_room roomId d s) =
      s.mapRoom roomId (fun r =>
        { r with pricePerMonth := d.pricePerMonth,
                 securityDeposit := d.securityDeposit,
                 advancePayment := d.advancePayment }) := by
  unfold update_room
  repeat' split
  all_goals try exact Or.inl rfl
  exact Or.inr rfl

theorem updateRoomStatus_shape (roomId : Nat) (newStatus : Option String) (s : DB) :
    stepResult s (update_room_status roomId newStatus s) = s ∨
    ∃ st : RoomStatus,
      stepResult s (update_room_status roomId newStatus s) =
        s.mapRoom roomId (fun r => { r with status := st }) := by
  unfold update_room_status
  repeat' (first | split | dsimp only)
  all_goals try exact Or.inl rfl
  all_goals exact Or.inr ⟨_, rfl⟩

theorem initiate_shape (txnUuid : String) (bid : Nat) (ptype : String)
    (pmonth : Option String) (s : DB) :
    (stepResult s (initiate_payment txnUuid bid ptype pmonth s)).bookings = s.bookings ∧
    (stepResult s (initiate_payment txnUuid bid ptype pmonth s)).rooms = s.rooms ∧
    (stepResult s (initiate_payment txnUuid bid ptype pmonth s)).nextRoomId =
      s.nextRoomId := by
  unfold initiate_payment
  repeat' (first | split | dsimp only)
  all_goals exact ⟨rfl, rfl, rfl⟩

theorem createBooking_shape (parseDate : String → Option Nat) (txnUuid : String)
    (d : BookingRequest) (s : DB) :
    stepResult s (create_booking_request parseDate txnUuid d s) = s ∨
    ∃ tenant room startDate endDate,
      s.findUserByTypes "tenant" "TENANT" = some tenant ∧
      s.findRoom d.roomId = some room ∧
      room.status = RoomStatus.available ∧
      stepResult s (create_booking_request parseDate txnUuid d s) =
        { s.mapRoom d.roomId (fun r => { r with status := .reserved }) with
          bookings := s.bookings ++
            [{ id := s.nextBookingId, tenantId := tenant.id,
               landlordId := room.ownerId, roomId := d.roomId,
               startDate := startDate, endDate := endDate,
               monthlyRent := room.pricePerMonth,
               securityDeposit := room.securityDeposit.getD 0,
               advancePayment := room.advancePayment.getD 0,
               status := .pending, tenancyStatus := some .pending,
               tenantMessage := d.tenantMessage, landlordResponse := none,
               approvedAt := none }],
          payments := s.payments ++
            [{ id := s.nextPaymentId, bookingId := s.nextBookingId,
               tenantId := tenant.id, landlordId := room.ownerId,
               amount := room.securityDeposit.getD 0 + room.advancePayment.getD 0,
               paymentType := "booking_payment", paymentMonth := none,
               transactionUuid := txnUuid, esewaRefId := none,
               esewaSignature := none, status := .pending, completedAt := none }],
          nextBookingId := s.nextBookingId + 1,
          nextPaymentId := s.nextPaymentId + 1 } := by
  unfold create_booking_request
  repeat' (first | split | dsimp only)
  all_goals first
    | exact Or.inl rfl
    | (refine Or.inr ⟨_, _, _, _, ?_, ?_, ?_, rfl⟩ <;>
        first | assumption | exact not_not.mp (by assumption))

theorem approve_shape (now bid : Nat) (s : DB) :
    stepResult s (approve_booking now bid s) = s ∨
    ∃ landlord booking,
      s.findUserByTypes "landlord" "LANDLORD" = some landlord ∧
      s.findBooking bid = some booking ∧
      booking.landlordId = landlord.id ∧
      booking.status = BookingStatus.pending ∧
      stepResult s (approve_booking now bid s) =
        ((s.mapBooking bid (fun b =>
            { b with status := .approved, tenancyStatus := some .pending,
                     approvedAt := some now })).mapRoom booking.roomId
          (fun r => { r with status := .reserved })) := by
  unfold approve_booking
  repeat' (first | split | dsimp only)
  all_goals first
    | exact Or.inl rfl
    | (refine Or.inr ⟨_, _, by assumption, by assumption, ?_, ?_, rfl⟩ <;>
        first | assumption | exact not_not.mp (by assumption))

theorem reject_shape (bid : Nat) (resp : Option String) (s : DB) :
    stepResult s (reject_booking bid resp s) = s ∨
    ∃ landlord booking respText,
      s.findUserByTypes "landlord" "LANDLORD" = some landlord ∧
      s.findBooking bid = some booking ∧
      booking.landlordId = landlord.id ∧
      stepResult s (reject_booking bid resp s) =
        ((s.mapBooking bid (fun b =>
            { b with status := .rejected,
                     landlordResponse := some respText })).mapRoom booking.roomId
          (fun r => { r with status := .available })) := by
  unfold reject_booking
  repeat' (first | split | dsimp only)
  all_goals first
    | exact Or.inl rfl
    | (refine Or.inr ⟨_, _, _, by assumption, by assumption, ?_, rfl⟩ <;>
        first | assumption | exact not_not.mp (by assumption))

theorem verify_shape (hmacB64 : String → String → String) (now : Nat)
    (uuid refId sig : String) (s : DB) :
    stepResult s (verify_payment hmacB64 now uuid refId sig s) = s ∨
    ∃ payment,
      s.findPaymentByUuid uuid = some payment ∧
      (let s1 := s.mapPayment payment.id (fun p =>
        { p with status := .completed, esewaRefId := some refId,
                 esewaSignature := some sig, completedAt := some now })
       stepResult s (verify_payment hmacB64 now uuid refId sig s) = s1 ∨
       (∃ booking, s1.findBooking payment.bookingId = some booking ∧
         stepResult s (verify_payment hmacB64 now uuid refId sig s) =
           s1.mapRoom booking.roomId (fun r => { r with status := .reserved })) ∨
       (∃ booking, s1.findBooking payment.bookingId = some booking ∧
         booking.status = BookingStatus.approved ∧
         stepResult s (verify_payment hmacB64 now uuid refId sig s) =
           ((s1.mapBooking booking.id (fun b =>
               { b with tenancyStatus := some .active })).mapRoom booking.roomId
             (fun r => { r with status := .occupied })))) := by
  unfold verify_payment
  repeat' (first | split | dsimp only)
  all_goals first
    | exact Or.inl rfl
    | (refine Or.inr ⟨_, ?_, Or.inl rfl⟩; assumption)
    | (refine Or.inr ⟨_, ?_, Or.inr (Or.inl ⟨_, ?_, rfl⟩)⟩ <;> assumption)
    | (refine Or.inr ⟨_, ?_, Or.inr (Or.inr ⟨_, ?_, ?_, rfl⟩)⟩ <;>
        first | assumption | exact not_not.mp (by assumption))

/-! ## Claim formalizations -/

/-- The invariant of claim C3: an Available room has no Pending/Approved
booking referencing it. -/
abbrev availableImpliesNoLiveBooking (s : DB) : Prop :=
  ∀ r ∈ s.rooms, r.status = RoomStatus.available →
    ∀ b ∈ s.bookings, b.roomId = r.id →
      b.status ≠ BookingStatus.pending ∧ b.status ≠ BookingStatus.approved

/-- The invariant of claim C4: tenancy Active only on an Approved
booking. -/
abbrev activeImpliesApproved (s : DB) : Prop :=
  ∀ b ∈ s.bookings, b.tenancyStatus = some TenancyStatus.active →
    b.status = BookingStatus.approved

/-- The `Booking.status` transition relation claim C5 asserts:
`Pending → {Approved, Rejected, Cancelled}`,
`Approved → {Completed, Cancelled}`, terminal states absorbing. -/
def specTransition : BookingStatus → BookingStatus → Bool
  | .pending, .approved => true
  | .pending, .rejected => true
  | .pending, .cancelled => true
  | .approved, .completed => true
  | .approved, .cancelled => true
  | _, _ => false

/-- Claim C1 formalized: from any state holding a Pending booking and a
stored security-deposit/advance payment for it, approving and then
verifying (with the correct gateway signature for the stored payment)
commutes with verifying and then approving, and either order ends with
the booking Active/Approved and its room Occupied. -/
abbrev C1claim (hmacB64 : String → String → String) : Prop :=
  ∀ (s : DB) (now1 now2 : Nat) (uuid refId : String) (p : Payment) (bid : Nat),
    s.findPaymentByUuid uuid = some p → p.bookingId = bid →
    (p.paymentType = "security_deposit" ∨ p.paymentType = "advance") →
    let sig := generate_signature hmacB64 TEST_SECRET_KEY p.amount uuid TEST_PRODUCT_CODE
    let s1 := stepResult s (approve_booking now1 bid s)
    let sAV := stepResult s1 (verify_payment hmacB64 now2 uuid refId sig s1)
    let s2 := stepResult s (verify_payment hmacB64 now2 uuid refId sig s)
    let sVA := stepResult s2 (approve_booking now1 bid s2)
    sAV = sVA ∧
    (sAV.findBooking bid).map Booking.tenancyStatus = some (some TenancyStatus.active) ∧
    ((sAV.findBooking bid).bind (fun b => sAV.findRoom b.roomId)).map Room.status =
      some RoomStatus.occupied

/-- Claim C2 formalized: re-verifying a payment that is already Completed
is accepted and returns the state unchanged. -/
abbrev C2claim (hmacB64 : String → String → String) : Prop :=
  ∀ (s : DB) (now : Nat) (uuid refId sig : String) (p : Payment),
    s.findPaymentByUuid uuid = some p → p.status = PaymentStatus.completed →
    verify_payment hmacB64 now uuid refId sig s = .ok s

/-! ## C1 — approval/payment-completion commutation (corrected) -/

/-- A hand-built state in which both orders of C1 are enabled: a Pending
booking with a Pending security-deposit payment already stored (the
endpoints themselves only create such a payment after approval, but C1
quantifies over every state with such a booking and payment). -/
def roomC1 : Room :=
  { id := 1, ownerId := 2, pricePerMonth := 12000, securityDeposit := some 5000,
    advancePayment := some 3000, status := .reserved }

def bookingC1 : Booking :=
  { id := 1, tenantId := 1, landlordId := 2, roomId := 1, startDate := 0,
    endDate := none, monthlyRent := 12000, securityDeposit := 5000,
    advancePayment := 3000, status := .pending, tenancyStatus := some .pending,
    tenantMessage := none, landlordResponse := none, approvedAt := none }

def paymentC1 : Payment :=
  { id := 1, bookingId := 1, tenantId := 1, landlordId := 2, amount := 5000,
    paymentType := "security_deposit", paymentMonth := none,
    transactionUuid := "uuid-sd", esewaRefId := none, esewaSignature := none,
    status := .pending, completedAt := none }

def dbC1 : DB :=
  { users := [tenant0, landlord0], rooms := [roomC1], bookings := [bookingC1],
    payments := [paymentC1], nextRoomId := 2, nextBookingId := 2, nextPaymentId := 2 }

/-- C1 (counterexample): approving then verifying a security-deposit
payment is *not* interchangeable with verifying then approving: on
`dbC1`, the first order ends Active/Occupied but the second leaves the
tenancy Pending and the room Reserved, because `verify_payment` only
activates a booking that is already Approved and `approve_booking` never
checks for completed payments. -/
theorem C1_counterexample : ¬ C1claim idHmac := by
  intro h
  have hc := h dbC1 10 20 "uuid-sd" "ref-1" paymentC1 1 (by decide) (by decide)
    (Or.inl (by decide))
  revert hc
  decide

/-! ## C3 — Available rooms have no live bookings (corrected) -/

/-- C3 (counterexample): the invariant "an Available room has no
Pending/Approved booking" is not preserved by every endpoint: from a
reachable state with booking 1 Pending on Reserved room 1, the
`update_room_status` endpoint sets the room back to `available`. -/
theorem C3_counterexample :
    ¬ ∀ s : DB, Reachable idHmac someParse s → availableImpliesNoLiveBooking s := by
  intro h
  have hc := h dbForcedAvailable reach_dbForcedAvailable
  revert hc
  decide

/-! ## C4 — tenancy Active implies booking Approved (corrected) -/

/-- C4 (counterexample): `reject_booking` checks no status at all, so
rejecting the Approved booking of an Active tenancy (reachable state
`dbActive`) leaves `tenancy_status = Active` on a Rejected booking. -/
theorem C4_counterexample :
    ¬ ∀ s : DB, Reachable idHmac someParse s → activeImpliesApproved s := by
  intro h
  have hc := h dbRejectedActive reach_dbRejectedActive
  revert hc
  decide

/-! ## C5 — booking status transitions (corrected) -/

/-- C5 (counterexample): the claimed transition relation (with terminal
states absorbing) is violated: from the reachable state `dbApproved`,
`reject_booking` moves booking 1 from Approved to Rejected, a transition
the claim does not allow. -/
theorem C5_counterexample :
    ¬ ∀ (s : DB) (o : Op), Reachable idHmac someParse s →
      ∀ b ∈ s.bookings, ∀ b' ∈ (runOp idHmac someParse o s).bookings,
        b'.id = b.id →
        (b'.status = b.status ∨ specTransition b.status b'.status) := by
  intro h
  have hc := h dbApproved (.reject 1 none) reach_dbApproved
  revert hc
  decide

/-! ## C6 — room CRUD never writes Occupied/Reserved (corrected) -/

/-- C6 (counterexample): `update_room_status` is a listing endpoint and
writes whatever status is requested: on reachable state `dbRoom` it moves
room 1 from Available straight to Occupied. -/
theorem C6_counterexample :
    ¬ ∀ (s : DB) (roomId : Nat) (newStatus : Option String) (r r' : Room),
      s.findRoom roomId = some r →
      (stepResult s (update_room_status roomId newStatus s)).findRoom roomId = some r' →
      (r'.status = r.status ∨
        (r'.status ≠ RoomStatus.occupied ∧ r'.status ≠ RoomStatus.reserved)) := by
  intro h
  have hc := h dbRoom 1 (some "occupied")
    { id := 1, ownerId := 2, pricePerMonth := 12000, securityDeposit := some 5000,
      advancePayment := some 3000, status := .available }
    { id := 1, ownerId := 2, pricePerMonth := 12000, securityDeposit := some 5000,
      advancePayment := some 3000, status := .occupied }
    (by decide) (by decide)
  revert hc
  decide

/-! ## C2 — idempotence of re-verification (corrected) -/

/-- C2 (counterexample): re-verifying the already-Completed payment 2 of
reachable state `dbActive` at a later time is not a no-op: the code
re-runs the whole completion and overwrites `completed_at` with the new
clock value. -/
theorem C2_counterexample : ¬ C2claim idHmac := by
  intro h
  have hc := h dbActive 21 "uuid-2" "ref-1" sdSig
    { id := 2, bookingId := 1, tenantId := 1, landlordId := 2, amount := 5000,
      paymentType := "security_deposit", paymentMonth := none,
      transactionUuid := "uuid-2", esewaRefId := some "ref-1",
      esewaSignature := some "total_amount=5000,transaction_uuid=uuid-2,product_code=EPAYTEST",
      status := .completed, completedAt := some 20 }
    (by decide) (by decide)
  revert hc
  decide

/-! ## C9 — signature round-trip (confirmed) -/

/-- C9: verifying the signature produced by the payment-form builder
against the same unmodified fields returns true, and against fields whose
amount is altered (by one unit or any other change) returns false —
assuming the HMAC tag function is collision-free, which is the standing
cryptographic assumption for HMAC-SHA256. -/
theorem C9_signature_roundtrip (hmacB64 : String → String → String)
    (hinj : ∀ k, Function.Injective (hmacB64 k))
    (amount : Nat) (transactionUuid productCode : String) :
    verify_signature hmacB64 TEST_SECRET_KEY
        (generate_signature hmacB64 TEST_SECRET_KEY amount transactionUuid productCode)
        amount transactionUuid productCode = true ∧
      ∀ altered : Nat, altered ≠ amount →
        verify_signature hmacB64 TEST_SECRET_KEY
          (generate_signature hmacB64 TEST_SECRET_KEY amount transactionUuid productCode)
          altered transactionUuid productCode = false := by
  constructor
  · simp [verify_signature]
  · intro altered hne
    have hne' : generate_signature hmacB64 TEST_SECRET_KEY amount transactionUuid
        productCode ≠ generate_signature hmacB64 TEST_SECRET_KEY altered
        transactionUuid productCode := by
      intro hcontra
      exact hne (stringToSign_inj_amount (hinj TEST_SECRET_KEY hcontra)).symm
    simpa [verify_signature, beq_eq_false_iff_ne] using hne'

/-- C9 witness: a concrete round trip at amount 8000, with the tampered
amount off by one unit. -/
theorem C9_signature_roundtrip_witness :
    verify_signature idHmac TEST_SECRET_KEY
        (generate_signature idHmac TEST_SECRET_KEY 8000 "uuid-1" TEST_PRODUCT_CODE)
        8000 "uuid-1" TEST_PRODUCT_CODE = true ∧
      verify_signature idHmac TEST_SECRET_KEY
        (generate_signature idHmac TEST_SECRET_KEY 8000 "uuid-1" TEST_PRODUCT_CODE)
        8001 "uuid-1" TEST_PRODUCT_CODE = false :=
  ⟨(C9_signature_roundtrip idHmac (fun _ _ _ h => h) 8000 "uuid-1" TEST_PRODUCT_CODE).1,
    (C9_signature_roundtrip idHmac (fun _ _ _ h => h) 8000 "uuid-1" TEST_PRODUCT_CODE).2
      8001 (by decide)⟩

/-! ## C8 — amount taken from the stored payment (confirmed) -/

/-- C8: `verify_payment` rebuilds the canonical string from the *stored*
payment's amount (the callback carries no amount at all), so a callback
whose signature was computed over any amount other than the stored
`payment.amount` is rejected with `Invalid signature` and no state
change — assuming the HMAC tag function is collision-free. -/
theorem C8_stored_amount_tamper_rejected (hmacB64 : String → String → String)
    (hinj : ∀ k, Function.Injective (hmacB64 k))
    (now : Nat) (s : DB) (uuid refId : String) (p : Payment)
    (hp : s.findPaymentByUuid uuid = some p)
    (tampered : Nat) (hne : tampered ≠ p.amount) :
    verify_payment hmacB64 now uuid refId
      (generate_signature hmacB64 TEST_SECRET_KEY tampered uuid TEST_PRODUCT_CODE) s =
      .error (.badRequest "Invalid signature") := by
  have hsig : verify_signature hmacB64 TEST_SECRET_KEY
      (generate_signature hmacB64 TEST_SECRET_KEY tampered uuid TEST_PRODUCT_CODE)
      p.amount uuid TEST_PRODUCT_CODE = false := by
    rw [verify_signature, beq_eq_false_iff_ne]
    intro hcontra
    exact hne (stringToSign_inj_amount (hinj TEST_SECRET_KEY hcontra))
  unfold verify_payment
  rw [hp]
  simp [hsig]

/-- C8 witness: on `dbC1` (stored amount 5000), a callback signed over
6000 is rejected. -/
theorem C8_stored_amount_tamper_rejected_witness :
    verify_payment idHmac 20 "uuid-sd" "ref-1"
      (generate_signature idHmac TEST_SECRET_KEY 6000 "uuid-sd" TEST_PRODUCT_CODE) dbC1 =
      .error (.badRequest "Invalid signature") :=
  C8_stored_amount_tamper_rejected idHmac (fun _ _ _ h => h) 20 dbC1 "uuid-sd" "ref-1"
    paymentC1 (by decide) 6000 (by decide)

/-! ## C10 — booking_payment verification re-reserves the room (confirmed) -/

/-- C10 (implicit): whenever `verify_payment` completes a
`booking_payment`, it sets the booking's room to Reserved with no check
of either the booking's or the room's current status — in particular a
late callback arriving after a rejection (room back to Available) moves
the room to Reserved again. -/
theorem C10_booking_payment_rereserves (hmacB64 : String → String → String)
    (now : Nat) (s : DB) (uuid refId : String) (p : Payment) (b : Booking) (r : Room)
    (hp : s.findPaymentByUuid uuid = some p)
    (htype : p.paymentType = "booking_payment")
    (hb : s.findBooking p.bookingId = some b)
    (hr : s.findRoom b.roomId = some r) :
    ∃ s', verify_payment hmacB64 now uuid refId
        (generate_signature hmacB64 TEST_SECRET_KEY p.amount uuid TEST_PRODUCT_CODE) s =
        .ok s' ∧
      s'.findRoom b.roomId = some { r with status := RoomStatus.reserved } := by
  unfold verify_payment
  rw [hp]
  have hb' : (s.mapPayment p.id (fun q =>
      { q with status := .completed, esewaRefId := some refId,
               esewaSignature := some (generate_signature hmacB64 TEST_SECRET_KEY
                 p.amount uuid TEST_PRODUCT_CODE),
               completedAt := some now })).findBooking p.bookingId = some b := hb
  simp only [verify_signature, beq_self_eq_true, eq_self_iff_true, not_true, if_false,
    htype, hb', if_true]
  refine ⟨_, rfl, ?_⟩
  exact find?_updFirst_self hr (fun y => by simp)

/-- The late-callback scenario: from `dbBooked`, the landlord rejects
booking 1, reverting room 1 to Available while payment 1 (the
booking_payment) is still Pending. -/
def dbRejectedPending : DB := runOp idHmac someParse (.reject 1 none) dbBooked

/-- C10 witness: on `dbRejectedPending` the late gateway callback for the
booking_payment moves the Available room back to Reserved, even though
its booking is Rejected. -/
theorem C10_booking_payment_rereserves_witness :
    ∃ s', verify_payment idHmac 30 "uuid-1" "ref-9"
        (generate_signature idHmac TEST_SECRET_KEY 8000 "uuid-1" TEST_PRODUCT_CODE)
        dbRejectedPending = .ok s' ∧
      s'.findRoom 1 = some
        { id := 1, ownerId := 2, pricePerMonth := 12000,
          securityDeposit := some 5000, advancePayment := some 3000,
          status := RoomStatus.reserved } :=
  C10_booking_payment_rereserves idHmac 30 dbRejectedPending "uuid-1" "ref-9"
    { id := 1, bookingId := 1, tenantId := 1, landlordId := 2, amount := 8000,
      paymentType := "booking_payment", paymentMonth := none,
      transactionUuid := "uuid-1", esewaRefId := none, esewaSignature := none,
      status := .pending, completedAt := none }
    { id := 1, tenantId := 1, landlordId := 2, roomId := 1, startDate := 0,
      endDate := none, monthlyRent := 12000, securityDeposit := 5000,
      advancePayment := 3000, status := .rejected, tenancyStatus := some .pending,
      tenantMessage := none, landlordResponse := some "Booking rejected",
      approvedAt := none }
    { id := 1, ownerId := 2, pricePerMonth := 12000, securityDeposit := some 5000,
      advancePayment := some 3000, status := .available }
    (by decide) (by decide) (by decide) (by decide)

/-! ## C7 — RequestBooking postcondition (confirmed) -/

/-- C7: under its preconditions (room Available, no live duplicate
booking, positive deposit+advance, parsable dates, fresh uuid draw),
`create_booking_request` appends a Pending booking snapshotting the
room's price/deposit/advance, appends a Pending `booking_payment` of
amount deposit+advance carrying the fresh transaction uuid (unique among
all stored payments), reserves the room, and later listing edits
(`update_room`, which rewrites the room's pricing) leave the created
booking untouched. -/
theorem C7_request_booking_postcondition (parseDate : String → Option Nat)
    (txnUuid : String) (d : BookingRequest) (s : DB)
    (tenant : User) (room : Room) (startDate : Nat) (endDateOpt : Option Nat)
    (htenant : s.findUserByTypes "tenant" "TENANT" = some tenant)
    (hroom : s.findRoom d.roomId = some room)
    (havail : room.status = RoomStatus.available)
    (hnodup : s.bookings.any (fun b => b.tenantId == tenant.id && b.roomId == d.roomId &&
        (b.status == BookingStatus.pending || b.status == BookingStatus.approved)) = false)
    (htotal : room.securityDeposit.getD 0 + room.advancePayment.getD 0 ≠ 0)
    (hstart : parseDate d.startDate = some startDate)
    (hend : (match d.endDate with
             | none => some none
             | some e => (parseDate e).map some) = some endDateOpt)
    (hfresh : ∀ q ∈ s.payments, q.transactionUuid ≠ txnUuid) :
    ∃ s', create_booking_request parseDate txnUuid d s = .ok s' ∧
      s'.bookings = s.bookings ++
        [{ id := s.nextBookingId, tenantId := tenant.id, landlordId := room.ownerId,
           roomId := d.roomId, startDate := startDate, endDate := endDateOpt,
           monthlyRent := room.pricePerMonth,
           securityDeposit := room.securityDeposit.getD 0,
           advancePayment := room.advancePayment.getD 0,
           status := .pending, tenancyStatus := some .pending,
           tenantMessage := d.tenantMessage, landlordResponse := none,
           approvedAt := none }] ∧
      s'.payments = s.payments ++
        [{ id := s.nextPaymentId, bookingId := s.nextBookingId, tenantId := tenant.id,
           landlordId := room.ownerId,
           amount := room.securityDeposit.getD 0 + room.advancePayment.getD 0,
           paymentType := "booking_payment", paymentMonth := none,
           transactionUuid := txnUuid, esewaRefId := none, esewaSignature := none,
           status := .pending, completedAt := none }] ∧
      s'.findRoom d.roomId = some { room with status := RoomStatus.reserved } ∧
      (∀ q ∈ s'.payments, q.transactionUuid = txnUuid → q.id = s.nextPaymentId) ∧
      (∀ rid dr, (stepResult s' (update_room rid dr s')).bookings = s'.bookings) := by
  unfold create_booking_request
  rw [htenant, hroom]
  dsimp only
  rw [if_neg (by simp [havail]), if_neg (by simp [hnodup]), if_neg htotal, hstart, hend]
  dsimp only
  refine ⟨_, rfl, rfl, rfl, ?_, ?_, ?_⟩
  · exact find?_updFirst_self hroom (fun y => by simp)
  · intro q hq hquuid
    simp only [List.mem_append, List.mem_singleton] at hq
    rcases hq with hq | hq
    · exact absurd hquuid (hfresh q hq)
    · rw [hq]
  · intro rid dr
    unfold update_room
    cases hfind : DB.findRoom _ rid with
    | none => rfl
    | some _ =>
      by_cases hv : roomTypeValid dr.roomType
      · rw [if_neg (by simp [hv])]
        by_cases hf : (match dr.furnishingStatus with
                       | some f => f != "" && ! furnishingValid f
                       | none => false) = true
        · rw [if_pos hf]; rfl
        · rw [if_neg hf]; rfl
      · rw [if_pos (by simp [hv])]; rfl

/-- C7 witness: the concrete request on `dbRoom` (deposit 5000, advance
3000) that produces `dbBooked`. -/
theorem C7_request_booking_postcondition_witness :
    ∃ s', create_booking_request someParse "uuid-1" bookReq0 dbRoom = .ok s' ∧
      s'.bookings = dbRoom.bookings ++
        [{ id := 1, tenantId := 1, landlordId := 2, roomId := 1, startDate := 0,
           endDate := none, monthlyRent := 12000, securityDeposit := 5000,
           advancePayment := 3000, status := .pending, tenancyStatus := some .pending,
           tenantMessage := none, landlordResponse := none, approvedAt := none }] ∧
      s'.payments = dbRoom.payments ++
        [{ id := 1, bookingId := 1, tenantId := 1, landlordId := 2, amount := 8000,
           paymentType := "booking_payment", paymentMonth := none,
           transactionUuid := "uuid-1", esewaRefId := none, esewaSignature := none,
           status := .pending, completedAt := none }] ∧
      s'.findRoom 1 = some
        { id := 1, ownerId := 2, pricePerMonth := 12000,
          securityDeposit := some 5000, advancePayment := some 3000,
          status := RoomStatus.reserved } ∧
      (∀ q ∈ s'.payments, q.transactionUuid = "uuid-1" → q.id = 1) ∧
      (∀ rid dr, (stepResult s' (update_room rid dr s')).bookings = s'.bookings) :=
  C7_request_booking_postcondition someParse "uuid-1" bookReq0 dbRoom
    tenant0
    { id := 1, ownerId := 2, pricePerMonth := 12000, securityDeposit := some 5000,
      advancePayment := some 3000, status := .available }
    0 none (by decide) (by decide) (by decide) (by decide) (by decide) (by decide)
    (by decide) (by decide)

/-- C5 (amended): the transitions `Booking.status` actually takes under
the endpoints: approval moves Pending → Approved; rejection moves *any*
status → Rejected (the handler has no status check); a newly created
booking starts Pending; no other endpoint changes any booking's status,
and no endpoint ever writes Cancelled or Completed. -/
theorem C5_actual_transitions (hmacB64 : String → String → String)
    (parseDate : String → Option Nat) (o : Op) (s : DB) :
    ∀ b' ∈ (runOp hmacB64 parseDate o s).bookings,
      (∃ b ∈ s.bookings, b'.id = b.id ∧
        (b'.status = b.status ∨
          (b.status = BookingStatus.pending ∧ b'.status = BookingStatus.approved) ∨
          b'.status = BookingStatus.rejected)) ∨
      b'.status = BookingStatus.pending := by
  intro b' hb'
  simp only [runOp, applyOp] at hb'
  cases o with
  | createRoom d =>
    rcases createRoom_shape d s with h | ⟨l, hl, h⟩ <;> rw [h] at hb' <;>
      exact Or.inl ⟨b', hb', rfl, Or.inl rfl⟩
  | updateRoom rid d =>
    rcases updateRoom_shape rid d s with h | h <;> rw [h] at hb' <;>
      exact Or.inl ⟨b', hb', rfl, Or.inl rfl⟩
  | updateRoomStatus rid ns =>
    rcases updateRoomStatus_shape rid ns s with h | ⟨st, h⟩ <;> rw [h] at hb' <;>
      exact Or.inl ⟨b', hb', rfl, Or.inl rfl⟩
  | initiate txn bid pt pm =>
    rw [(initiate_shape txn bid pt pm s).1] at hb'
    exact Or.inl ⟨b', hb', rfl, Or.inl rfl⟩
  | createBooking txn d =>
    rcases createBooking_shape parseDate txn d s with h | ⟨t, room, sd, ed, _, _, _, h⟩ <;>
      rw [h] at hb'
    · exact Or.inl ⟨b', hb', rfl, Or.inl rfl⟩
    · rcases List.mem_append.mp hb' with hold | hnew
      · exact Or.inl ⟨b', hold, rfl, Or.inl rfl⟩
      · rw [List.mem_singleton] at hnew
        rw [hnew]
        exact Or.inr rfl
  | approve now bid =>
    rcases approve_shape now bid s with h | ⟨l, booking, hl, hb, hown, hpend, h⟩ <;>
      rw [h] at hb'
    · exact Or.inl ⟨b', hb', rfl, Or.inl rfl⟩
    · rcases mem_updFirst_find? hb' with hold | ⟨y, hy, hxy⟩
      · exact Or.inl ⟨b', hold, rfl, Or.inl rfl⟩
      · have hyb : y = booking := Option.some.inj (hy.symm.trans hb)
        subst hxy
        subst hyb
        exact Or.inl ⟨y, List.mem_of_find?_eq_some hy, rfl,
          Or.inr (Or.inl ⟨hpend, rfl⟩)⟩
  | reject bid resp =>
    rcases reject_shape bid resp s with h | ⟨l, booking, rt, hl, hb, hown, h⟩ <;>
      rw [h] at hb'
    · exact Or.inl ⟨b', hb', rfl, Or.inl rfl⟩
    · rcases mem_updFirst_find? hb' with hold | ⟨y, hy, hxy⟩
      · exact Or.inl ⟨b', hold, rfl, Or.inl rfl⟩
      · subst hxy
        exact Or.inl ⟨y, List.mem_of_find?_eq_some hy, rfl, Or.inr (Or.inr rfl)⟩
  | verify now uuid refId sig =>
    rcases verify_shape hmacB64 now uuid refId sig s with h | ⟨p, hp, hrest⟩
    · rw [h] at hb'; exact Or.inl ⟨b', hb', rfl, Or.inl rfl⟩
    · rcases hrest with h | ⟨bk, hbk, h⟩ | ⟨bk, hbk, happ, h⟩ <;> rw [h] at hb'
      · exact Or.inl ⟨b', hb', rfl, Or.inl rfl⟩
      · exact Or.inl ⟨b', hb', rfl, Or.inl rfl⟩
      · rcases mem_updFirst_find? hb' with hold | ⟨y, hy, hxy⟩
        · exact Or.inl ⟨b', hold, rfl, Or.inl rfl⟩
        · subst hxy
          exact Or.inl ⟨y, List.mem_of_find?_eq_some hy, rfl, Or.inl rfl⟩

/-- C4 (amended): the invariant "tenancy Active implies status Approved"
is preserved by every modelled endpoint *except* `reject_booking`: the
only writer of `tenancy_status = Active` is `verify_payment`, which
writes it only when the booking is already Approved, and no endpoint
other than `reject_booking` moves a booking out of Approved.
(`reject_booking` violates it: see the C4 counterexample.) -/
theorem C4_active_implies_approved_preserved (hmacB64 : String → String → String)
    (parseDate : String → Option Nat) (o : Op) (s : DB)
    (hnr : ∀ bid r, o ≠ Op.reject bid r)
    (hinv : activeImpliesApproved s) :
    activeImpliesApproved (runOp hmacB64 parseDate o s) := by
  intro b' hb' hact
  simp only [runOp, applyOp] at hb'
  cases o with
  | createRoom d =>
    rcases createRoom_shape d s with h | ⟨l, hl, h⟩ <;> rw [h] at hb' <;>
      exact hinv b' hb' hact
  | updateRoom rid d =>
    rcases updateRoom_shape rid d s with h | h <;> rw [h] at hb' <;>
      exact hinv b' hb' hact
  | updateRoomStatus rid ns =>
    rcases updateRoomStatus_shape rid ns s with h | ⟨st, h⟩ <;> rw [h] at hb' <;>
      exact hinv b' hb' hact
  | initiate txn bid pt pm =>
    rw [(initiate_shape txn bid pt pm s).1] at hb'
    exact hinv b' hb' hact
  | createBooking txn d =>
    rcases createBooking_shape parseDate txn d s with h | ⟨t, room, sd, ed, _, _, _, h⟩ <;>
      rw [h] at hb'
    · exact hinv b' hb' hact
    · rcases List.mem_append.mp hb' with hold | hnew
      · exact hinv b' hold hact
      · rw [List.mem_singleton] at hnew
        subst hnew
        simp at hact
  | approve now bid =>
    rcases approve_shape now bid s with h | ⟨l, booking, hl, hb, hown, hpend, h⟩ <;>
      rw [h] at hb'
    · exact hinv b' hb' hact
    · rcases mem_updFirst_find? hb' with hold | ⟨y, hy, hxy⟩
      · exact hinv b' hold hact
      · subst hxy
        simp at hact
  | reject bid resp => exact absurd rfl (hnr bid resp)
  | verify now uuid refId sig =>
    rcases verify_shape hmacB64 now uuid refId sig s with h | ⟨p, hp, hrest⟩
    · rw [h] at hb'; exact hinv b' hb' hact
    · rcases hrest with h | ⟨bk, hbk, h⟩ | ⟨bk, hbk, happ, h⟩ <;> rw [h] at hb'
      · exact hinv b' hb' hact
      · exact hinv b' hb' hact
      · rcases mem_updFirst_find? hb' with hold | ⟨y, hy, hxy⟩
        · exact hinv b' hold hact
        · have hkey : bk.id = p.bookingId := by
            have := List.find?_some hbk
            simpa using this
          have hbk' : s.bookings.find? (fun x => x.id == bk.id) = some bk := by
            rw [hkey]; exact hbk
          have hyb : y = bk := Option.some.inj (hy.symm.trans hbk')
          subst hxy
          subst hyb
          exact happ

/-- C4 witness: one non-reject endpoint call on a concrete state
satisfying the invariant — verifying the security-deposit payment on
`dbInitiated` — preserves the invariant. -/
theorem C4_active_implies_approved_preserved_witness :
    activeImpliesApproved
      (runOp idHmac someParse (.verify 20 "uuid-2" "ref-1" sdSig) dbInitiated) :=
  C4_active_implies_approved_preserved idHmac someParse
    (.verify 20 "uuid-2" "ref-1" sdSig) dbInitiated
    (fun _ _ h => by cases h) (by decide)

/-- C5 witness: a concrete application — the approval of booking 1 on
`dbBooked` — exercising the amended transition relation. -/
theorem C5_actual_transitions_witness :
    (∃ b ∈ dbBooked.bookings,
      ({ id := 1, tenantId := 1, landlordId := 2, roomId := 1, startDate := 0,
         endDate := none, monthlyRent := 12000, securityDeposit := 5000,
         advancePayment := 3000, status := BookingStatus.approved,
         tenancyStatus := some TenancyStatus.pending, tenantMessage := none,
         landlordResponse := none, approvedAt := some 10 } : Booking).id = b.id ∧
        ((BookingStatus.approved : BookingStatus) = b.status ∨
          (b.status = BookingStatus.pending ∧
            (BookingStatus.approved : BookingStatus) = BookingStatus.approved) ∨
          (BookingStatus.approved : BookingStatus) = BookingStatus.rejected)) ∨
    (BookingStatus.approved : BookingStatus) = BookingStatus.pending :=
  C5_actual_transitions idHmac someParse (.approve 10 1) dbBooked
    { id := 1, tenantId := 1, landlordId := 2, roomId := 1, startDate := 0,
      endDate := none, monthlyRent := 12000, securityDeposit := 5000,
      advancePayment := 3000, status := BookingStatus.approved,
      tenancyStatus := some TenancyStatus.pending, tenantMessage := none,
      landlordResponse := none, approvedAt := some 10 }
    (by decide)

/-- C6 (amended): `Room.status` is *not* written exclusively by the
booking lifecycle: the `update_room_status` listing endpoint writes
whatever valid status is requested — Occupied and Reserved included —
while the other listing endpoints never touch the status field
(`update_room` rewrites listing fields only, `create_room` only appends
Available rooms). -/
theorem C6_update_room_status_writes_any (s : DB) (roomId : Nat) (ns : String)
    (st : RoomStatus) (r : Room)
    (hr : s.findRoom roomId = some r)
    (hst : roomStatusFromString (lowerString ns) = some st) :
    (∃ s', update_room_status roomId (some ns) s = .ok s' ∧
      s'.findRoom roomId = some { r with status := st }) ∧
    (∀ d, ((stepResult s (update_room roomId d s)).rooms.map Room.status) =
      s.rooms.map Room.status) ∧
    (∀ d (r' : Room), r' ∈ (stepResult s (create_room d s)).rooms →
      r' ∈ s.rooms ∨ r'.status = RoomStatus.available) := by
  refine ⟨?_, ?_, ?_⟩
  · have hne : ns ≠ "" := by
      intro h
      subst h
      have h0 : roomStatusFromString (lowerString "") = none := rfl
      rw [h0] at hst
      exact Option.noConfusion hst
    unfold update_room_status
    rw [hr]
    dsimp only
    rw [if_neg hne, hst]
    exact ⟨_, rfl, find?_updFirst_self hr (fun y => by simp)⟩
  · intro d
    rcases updateRoom_shape roomId d s with h | h <;> rw [h]
    apply map_updFirst_of_stable
    intro y
    rfl
  · intro d r' hr'
    rcases createRoom_shape d s with h | ⟨l, hl, h⟩ <;> rw [h] at hr'
    · exact Or.inl hr'
    · rcases List.mem_append.mp hr' with hold | hnew
      · exact Or.inl hold
      · rw [List.mem_singleton] at hnew
        subst hnew
        exact Or.inr rfl

/-- C6 witness: on `dbRoom`, requesting status "reserved" through the
listing endpoint sets room 1 to Reserved. -/
theorem C6_update_room_status_writes_any_witness :
    (∃ s', update_room_status 1 (some "reserved") dbRoom = .ok s' ∧
      s'.findRoom 1 = some
        { id := 1, ownerId := 2, pricePerMonth := 12000,
          securityDeposit := some 5000, advancePayment := some 3000,
          status := RoomStatus.reserved }) ∧
    (∀ d, ((stepResult dbRoom (update_room 1 d dbRoom)).rooms.map Room.status) =
      dbRoom.rooms.map Room.status) ∧
    (∀ d (r' : Room), r' ∈ (stepResult dbRoom (create_room d dbRoom)).rooms →
      r' ∈ dbRoom.rooms ∨ r'.status = RoomStatus.available) :=
  C6_update_room_status_writes_any dbRoom 1 "reserved" RoomStatus.reserved
    { id := 1, ownerId := 2, pricePerMonth := 12000, securityDeposit := some 5000,
      advancePayment := some 3000, status := RoomStatus.available }
    (by decide) (by decide)

/-! ## C3 — availability invariant under the preserving endpoints -/

/-- The endpoints that preserve C3's invariant: everything except
`reject_booking` (which reverts the room to Available without checking
for other live bookings, and does so even when re-rejecting an
already-rejected booking) and `update_room_status` (which writes any
requested status). -/
def availPreservingOp : Op → Prop
  | .reject _ _ => False
  | .updateRoomStatus _ _ => False
  | _ => True

/-- Auxiliary inductive invariant for C3: room ids are distinct and below
the id sequence, bookings reference only allocated room ids, and the
availability invariant itself. -/
theorem reachable_avail_inv (hmacB64 : String → String → String)
    (parseDate : String → Option Nat) (s : DB)
    (h : ReachableVia hmacB64 parseDate availPreservingOp s) :
    ((s.rooms.map Room.id).Nodup ∧
      (∀ r ∈ s.rooms, r.id < s.nextRoomId) ∧
      (∀ b ∈ s.bookings, b.roomId < s.nextRoomId)) ∧
    availableImpliesNoLiveBooking s := by
  induction h with
  | init users nr nb np =>
    refine ⟨⟨List.nodup_nil, ?_, ?_⟩, ?_⟩
    · intro r hr; exact absurd hr (List.not_mem_nil r)
    · intro b hb; exact absurd hb (List.not_mem_nil b)
    · intro r hr; exact absurd hr (List.not_mem_nil r)
  | step o ho hs ih =>
    obtain ⟨⟨hnd, hrb, hbb⟩, hinv⟩ := ih
    rename_i t
    simp only [runOp, applyOp]
    cases o with
    | reject bid resp => exact ho.elim
    | updateRoomStatus rid ns => exact ho.elim
    | createRoom d =>
      rcases createRoom_shape d t with h | ⟨l, hl, h⟩
      · rw [h]; exact ⟨⟨hnd, hrb, hbb⟩, hinv⟩
      · rw [h]
        dsimp only
        refine ⟨⟨?_, ?_, ?_⟩, ?_⟩
        · rw [List.map_append, List.map_singleton]
          refine List.Nodup.append hnd (List.nodup_singleton _) ?_
          intro a ha hb
          rw [List.mem_singleton] at hb
          subst hb
          obtain ⟨r0, hr0, hr0id⟩ := List.mem_map.mp ha
          have hlt := hrb r0 hr0
          dsimp only at hr0id
          omega
        · intro r hr
          rcases List.mem_append.mp hr with hold | hnew
          · have := hrb r hold; omega
          · rw [List.mem_singleton] at hnew
            subst hnew
            dsimp only
            omega
        · intro b hb
          have := hbb b hb; omega
        · intro r hr havail b hb hbid
          rcases List.mem_append.mp hr with hold | hnew
          · exact hinv r hold havail b hb hbid
          · rw [List.mem_singleton] at hnew
            subst hnew
            have hlt := hbb b hb
            exact absurd (show b.roomId = t.nextRoomId from hbid) (by omega)
    | updateRoom rid d =>
      rcases updateRoom_shape rid d t with h | h <;> rw [h]
      · exact ⟨⟨hnd, hrb, hbb⟩, hinv⟩
      · refine ⟨⟨?_, ?_, hbb⟩, ?_⟩
        · apply nodup_map_updFirst
          · intro y; rfl
          · exact hnd
        · intro r hr
          rcases mem_updFirst hr with hold | ⟨y, hy, _, hxy⟩
          · exact hrb r hold
          · subst hxy; exact hrb y hy
        · intro r hr havail b hb hbid
          rcases mem_updFirst hr with hold | ⟨y, hy, _, hxy⟩
          · exact hinv r hold havail b hb hbid
          · subst hxy
            exact hinv y hy havail b hb hbid
    | initiate txn bid pt pm =>
      obtain ⟨h1, h2, h3⟩ := initiate_shape txn bid pt pm t
      refine ⟨⟨?_, ?_, ?_⟩, ?_⟩
      · rw [h2]; exact hnd
      · rw [h2, h3]; exact hrb
      · rw [h1, h3]; exact hbb
      · intro r hr havail b hb hbid
        rw [h2] at hr
        rw [h1] at hb
        exact hinv r hr havail b hb hbid
    | createBooking txn d =>
      rcases createBooking_shape parseDate txn d t with h | ⟨tn, room, sd, ed, _, hroom, _, h⟩ <;>
        rw [h]
      · exact ⟨⟨hnd, hrb, hbb⟩, hinv⟩
      · have hrid : room.id = d.roomId := by
          have := List.find?_some hroom
          simpa using this
        have hroomlt : d.roomId < t.nextRoomId := by
          have := hrb room (List.mem_of_find?_eq_some hroom)
          omega
        refine ⟨⟨?_, ?_, ?_⟩, ?_⟩
        · apply nodup_map_updFirst
          · intro y; rfl
          · exact hnd
        · intro r hr
          rcases mem_updFirst hr with hold | ⟨y, hy, _, hxy⟩
          · exact hrb r hold
          · subst hxy; exact hrb y hy
        · intro b hb
          rcases List.mem_append.mp hb with hold | hnew
          · exact hbb b hold
          · rw [List.mem_singleton] at hnew
            subst hnew
            exact hroomlt
        · intro r hr havail b hb hbid
          have hridne : r.id ≠ d.roomId := by
            intro hcontra
            obtain ⟨y, _, _, hxy⟩ := mem_updFirst_of_key hnd hr hcontra
            rw [hxy] at havail
            exact absurd havail (by simp)
          have hrmem : r ∈ t.rooms := by
            rcases mem_updFirst hr with hold | ⟨y, hy, _, hxy⟩
            · exact hold
            · rw [hxy] at havail; exact absurd havail (by simp)
          rcases List.mem_append.mp hb with hold | hnew
          · exact hinv r hrmem havail b hold hbid
          · rw [List.mem_singleton] at hnew
            subst hnew
            exact absurd hbid.symm hridne
    | approve now bid =>
      rcases approve_shape now bid t with h | ⟨l, booking, hl, hb, hown, hpend, h⟩ <;> rw [h]
      · exact ⟨⟨hnd, hrb, hbb⟩, hinv⟩
      · refine ⟨⟨?_, ?_, ?_⟩, ?_⟩
        · apply nodup_map_updFirst
          · intro y; rfl
          · exact hnd
        · intro r hr
          rcases mem_updFirst hr with hold | ⟨y, hy, _, hxy⟩
          · exact hrb r hold
          · subst hxy; exact hrb y hy
        · intro b hbmem
          rcases mem_updFirst hbmem with hold | ⟨y, hy, _, hxy⟩
          · exact hbb b hold
          · subst hxy; exact hbb y hy
        · intro r hr havail b hbmem hbid
          have hrmem : r ∈ t.rooms := by
            rcases mem_updFirst hr with hold | ⟨y, hy, _, hxy⟩
            · exact hold
            · rw [hxy] at havail; exact absurd havail (by simp)
          have hridne : r.id ≠ booking.roomId := by
            intro hcontra
            obtain ⟨y, _, _, hxy⟩ := mem_updFirst_of_key hnd hr hcontra
            rw [hxy] at havail
            exact absurd havail (by simp)
          rcases mem_updFirst_find? hbmem with hold | ⟨y, hy, hxy⟩
          · exact hinv r hrmem havail b hold hbid
          · have hyb : y = booking := Option.some.inj (hy.symm.trans hb)
            subst hxy
            subst hyb
            exact absurd hbid.symm hridne
    | verify now uuid refId sig =>
      rcases verify_shape hmacB64 now uuid refId sig t with h | ⟨p, hp, hrest⟩
      · rw [h]; exact ⟨⟨hnd, hrb, hbb⟩, hinv⟩
      · rcases hrest with h | ⟨bk, hbk, h⟩ | ⟨bk, hbk, happ, h⟩ <;> rw [h]
        · exact ⟨⟨hnd, hrb, hbb⟩, hinv⟩
        · refine ⟨⟨?_, ?_, hbb⟩, ?_⟩
          · apply nodup_map_updFirst
            · intro y; rfl
            · exact hnd
          · intro r hr
            rcases mem_updFirst hr with hold | ⟨y, hy, _, hxy⟩
            · exact hrb r hold
            · subst hxy; exact hrb y hy
          · intro r hr havail b hbm hbid
            have hrmem : r ∈ t.rooms := by
              rcases mem_updFirst hr with hold | ⟨y, hy, _, hxy⟩
              · exact hold
              · rw [hxy] at havail; exact absurd havail (by simp)
            exact hinv r hrmem havail b hbm hbid
        · refine ⟨⟨?_, ?_, ?_⟩, ?_⟩
          · apply nodup_map_updFirst
            · intro y; rfl
            · exact hnd
          · intro r hr
            rcases mem_updFirst hr with hold | ⟨y, hy, _, hxy⟩
            · exact hrb r hold
            · subst hxy; exact hrb y hy
          · intro b hbm
            rcases mem_updFirst hbm with hold | ⟨y, hy, _, hxy⟩
            · exact hbb b hold
            · subst hxy; exact hbb y hy
          · intro r hr havail b hbm hbid
            have hrmem : r ∈ t.rooms := by
              rcases mem_updFirst hr with hold | ⟨y, hy, _, hxy⟩
              · exact hold
              · rw [hxy] at havail; exact absurd havail (by simp)
            rcases mem_updFirst hbm with hold | ⟨y, hy, _, hxy⟩
            · exact hinv r hrmem havail b hold hbid
            · subst hxy
              exact hinv r hrmem havail y hy hbid

/-- C3 (amended): the invariant "an Available room has no
Pending/Approved booking" holds in every state reachable through the
endpoints *other than* `reject_booking` and `update_room_status`; those
two can violate it (`update_room_status` by overriding the status — the
C3 counterexample — and `reject_booking` by reverting the room to
Available unconditionally, even on a re-rejection while another live
booking exists). -/
theorem C3_available_invariant_without_status_override
    (hmacB64 : String → String → String) (parseDate : String → Option Nat)
    (s : DB) (h : ReachableVia hmacB64 parseDate availPreservingOp s) :
    availableImpliesNoLiveBooking s :=
  (reachable_avail_inv hmacB64 parseDate s h).2

/-- C3 witness: `dbActive` is reachable without the two excluded
endpoints, so the invariant holds there. -/
theorem C3_available_invariant_without_status_override_witness :
    availableImpliesNoLiveBooking dbActive :=
  C3_available_invariant_without_status_override idHmac someParse dbActive
    (ReachableVia.step (Op.verify 20 "uuid-2" "ref-1" sdSig) trivial
      (ReachableVia.step (Op.initiate "uuid-2" 1 "security_deposit" none) trivial
        (ReachableVia.step (Op.approve 10 1) trivial
          (ReachableVia.step (Op.createBooking "uuid-1" bookReq0) trivial
            (ReachableVia.step (Op.createRoom roomReq0) trivial
              (ReachableVia.init [tenant0, landlord0] 1 1 1))))))

/-! ## Equational characterizations of the two payment-sensitive endpoints -/

/-- With distinct keys, updating the row keyed like the row `find?`
returns keeps `find?` (by a predicate the update preserves) pointing at
the updated row. -/
theorem find?_updFirst_of_key_nodup {α : Type} {key : α → Nat} {pred : α → Bool}
    {l : List α} (hnd : (l.map key).Nodup) {x : α} (hx : l.find? pred = some x)
    (f : α → α) (hpf : ∀ y, pred (f y) = pred y) :
    (updFirst (fun y => key y == key x) f l).find? pred = some (f x) := by
  induction l with
  | nil => simp at hx
  | cons a as ih =>
    rw [List.map_cons, List.nodup_cons] at hnd
    rw [List.find?_cons] at hx
    cases hpa : pred a with
    | true =>
      rw [hpa] at hx
      have hax : a = x := Option.some.inj hx
      subst hax
      rw [show updFirst (fun y => key y == key a) f (a :: as) = f a :: as from by
        simp [updFirst]]
      rw [List.find?_cons, hpf, hpa]
    | false =>
      rw [hpa] at hx
      have hxmem : x ∈ as := List.mem_of_find?_eq_some hx
      have hka : (key a == key x) = false := by
        have hne : key a ≠ key x := fun hc => hnd.1 (hc ▸ List.mem_map_of_mem key hxmem)
        simpa using hne
      rw [show updFirst (fun y => key y == key x) f (a :: as) =
          a :: updFirst (fun y => key y == key x) f as from by
        simp [updFirst, hka]]
      rw [List.find?_cons, hpa]
      exact ih hnd.2 hx

/-- One gateway callback applied to the state. -/
def verifyStep (hmacB64 : String → String → String) (now : Nat)
    (uuid refId sig : String) (s : DB) : DB :=
  stepResult s (verify_payment hmacB64 now uuid refId sig s)

/-- One approval call applied to the state. -/
def approveStep (now bookingId : Nat) (s : DB) : DB :=
  stepResult s (approve_booking now bookingId s)

/-- The success path of `verify_payment` as one equation on states: with
the payment found and its signature accepted, the callback completes the
payment and applies the derived effects keyed on the payment type and the
booking's status. -/
theorem verifyStep_eq (hmacB64 : String → String → String) (now : Nat)
    (uuid refId sig : String) (s : DB) (p : Payment)
    (hp : s.findPaymentByUuid uuid = some p)
    (hsig : verify_signature hmacB64 TEST_SECRET_KEY sig p.amount uuid
      TEST_PRODUCT_CODE = true) :
    verifyStep hmacB64 now uuid refId sig s =
      (let s1 := s.mapPayment p.id (fun q =>
        { q with status := .completed, esewaRefId := some refId,
                 esewaSignature := some sig, completedAt := some now })
       match s.bookings.find? (fun x => x.id == p.bookingId) with
       | none => s1
       | some booking =>
         if p.paymentType = "booking_payment" then
           s1.mapRoom booking.roomId (fun r => { r with status := .reserved })
         else if p.paymentType = "security_deposit" ∨ p.paymentType = "advance" then
           if booking.status = BookingStatus.approved then
             (s1.mapBooking booking.id (fun b =>
                 { b with tenancyStatus := some .active })).mapRoom booking.roomId
               (fun r => { r with status := .occupied })
           else s1
         else s1) := by
  unfold verifyStep verify_payment
  rw [hp]
  dsimp only
  rw [if_neg (by simp [hsig])]
  rw [show (s.mapPayment p.id (fun q =>
      { q with status := .completed, esewaRefId := some refId,
               esewaSignature := some sig, completedAt := some now })).findBooking
      p.bookingId = s.bookings.find? (fun x => x.id == p.bookingId) from rfl]
  cases hb : s.bookings.find? (fun x => x.id == p.bookingId) with
  | none => rfl
  | some booking =>
    repeat' split
    all_goals rfl

/-- The success path of `approve_booking` as one equation on states. -/
theorem approveStep_eq (now bid : Nat) (s : DB) (landlord : User) (b : Booking)
    (hl : s.findUserByTypes "landlord" "LANDLORD" = some landlord)
    (hb : s.findBooking bid = some b)
    (hown : b.landlordId = landlord.id)
    (hpend : b.status = BookingStatus.pending) :
    approveStep now bid s =
      (s.mapBooking bid (fun x =>
        { x with status := .approved, tenancyStatus := some .pending,
                 approvedAt := some now })).mapRoom b.roomId
        (fun r => { r with status := .reserved }) := by
  unfold approveStep approve_booking
  rw [hl, hb]
  dsimp only
  rw [if_neg (by simp [hown]), if_neg (by simp [hpend])]
  rfl

/-- C2, amended: `verify_payment` never checks whether the payment is
already Completed, so a second identical gateway callback is *accepted*
and re-applies every effect; the re-application leaves the bookings and
rooms tables exactly as after the first call, and changes the payment
table only in the `completed_at` column (overwritten with the later
clock).  Stated for any state whose payment ids are distinct — the
database's primary-key guarantee. -/
theorem C2_reverify_idempotent_except_completedAt
    (hmacB64 : String → String → String) (now1 now2 : Nat)
    (uuid refId sig : String) (s : DB)
    (hnd : (s.payments.map Payment.id).Nodup) :
    (verifyStep hmacB64 now2 uuid refId sig
        (verifyStep hmacB64 now1 uuid refId sig s)).bookings =
      (verifyStep hmacB64 now1 uuid refId sig s).bookings ∧
    (verifyStep hmacB64 now2 uuid refId sig
        (verifyStep hmacB64 now1 uuid refId sig s)).rooms =
      (verifyStep hmacB64 now1 uuid refId sig s).rooms ∧
    (verifyStep hmacB64 now2 uuid refId sig
        (verifyStep hmacB64 now1 uuid refId sig s)).payments.map
        (fun q => { q with completedAt := none }) =
      (verifyStep hmacB64 now1 uuid refId sig s).payments.map
        (fun q => { q with completedAt := none }) := by
  cases hp : s.findPaymentByUuid uuid with
  | none =>
    have e1 : verifyStep hmacB64 now1 uuid refId sig s = s := by
      simp only [verifyStep, verify_payment, hp, stepResult]
    have e2 : verifyStep hmacB64 now2 uuid refId sig s = s := by
      simp only [verifyStep, verify_payment, hp, stepResult]
    rw [e1, e2]
    exact ⟨rfl, rfl, rfl⟩
  | some p =>
    cases hsig : verify_signature hmacB64 TEST_SECRET_KEY sig p.amount uuid
        TEST_PRODUCT_CODE with
    | false =>
      have e1 : verifyStep hmacB64 now1 uuid refId sig s = s := by
        simp only [verifyStep, verify_payment, hp]
        rw [if_pos (by simp [hsig])]
        rfl
      have e2 : verifyStep hmacB64 now2 uuid refId sig s = s := by
        simp only [verifyStep, verify_payment, hp]
        rw [if_pos (by simp [hsig])]
        rfl
      rw [e1, e2]
      exact ⟨rfl, rfl, rfl⟩
    | true =>
      rw [verifyStep_eq hmacB64 now1 uuid refId sig s p hp hsig]
      dsimp only
      cases hb : s.bookings.find? (fun x => x.id == p.bookingId) with
      | none =>
        dsimp only
        have hp2 : ((s.mapPayment p.id (fun q =>
            { q with status := .completed, esewaRefId := some refId,
                     esewaSignature := some sig,
                     completedAt := some now1 })).findPaymentByUuid uuid) =
            some
              ({ p with status := .completed, esewaRefId := some refId,
                        esewaSignature := some sig, completedAt := some now1 }) := by
          apply find?_updFirst_of_key_nodup hnd hp
          intro y
          rfl
        rw [verifyStep_eq hmacB64 now2 uuid refId sig _ _ hp2 hsig]
        dsimp only
        dsimp only [DB.mapPayment]
        rw [hb]
        dsimp only
        refine ⟨rfl, rfl, ?_⟩
        apply map_updFirst_twice <;> intro y <;> rfl
      | some bk =>
        dsimp only
        by_cases ht1 : p.paymentType = "booking_payment"
        · rw [if_pos ht1]
          have hp2 : (((s.mapPayment p.id (fun q =>
              { q with status := .completed, esewaRefId := some refId,
                       esewaSignature := some sig,
                       completedAt := some now1 })).mapRoom bk.roomId
              (fun r => { r with status := .reserved })).findPaymentByUuid
              uuid) =
              some
                ({ p with status := .completed, esewaRefId := some refId,
                          esewaSignature := some sig, completedAt := some now1 }) := by
            apply find?_updFirst_of_key_nodup hnd hp
            intro y
            rfl
          rw [verifyStep_eq hmacB64 now2 uuid refId sig _ _ hp2 hsig]
          dsimp only
          dsimp only [DB.mapPayment, DB.mapRoom]
          rw [hb]
          dsimp only
          rw [if_pos ht1]
          dsimp only
          refine ⟨rfl, ?_, ?_⟩
          · apply updFirst_twice <;> intro y <;> rfl
          · apply map_updFirst_twice <;> intro y <;> rfl
        · by_cases ht2 : p.paymentType = "security_deposit" ∨
              p.paymentType = "advance"
          · rw [if_neg ht1, if_pos ht2]
            by_cases happ : bk.status = BookingStatus.approved
            · rw [if_pos happ]
              have hkey : bk.id = p.bookingId := by
                simpa using List.find?_some hb
              have hfe : (fun x : Booking => x.id == p.bookingId) =
                  (fun x : Booking => x.id == bk.id) := by rw [hkey]
              have hb' : s.bookings.find? (fun x => x.id == bk.id) = some bk := by
                rw [← hfe]
                exact hb
              have hb2 : (updFirst (fun x : Booking => x.id == bk.id)
                  (fun b => { b with tenancyStatus := some TenancyStatus.active })
                  s.bookings).find? (fun x => x.id == p.bookingId) =
                  some { bk with tenancyStatus := some TenancyStatus.active } := by
                rw [hfe]
                apply find?_updFirst_self hb'
                intro y
                rfl
              have hp2 : ((((s.mapPayment p.id (fun q =>
                  { q with status := .completed, esewaRefId := some refId,
                           esewaSignature := some sig,
                           completedAt := some now1 })).mapBooking bk.id
                  (fun b => { b with tenancyStatus := some TenancyStatus.active })).mapRoom
                  bk.roomId
                  (fun r => { r with status := .occupied })).findPaymentByUuid
                  uuid) =
                  some
                    ({ p with status := .completed, esewaRefId := some refId,
                              esewaSignature := some sig, completedAt := some now1 }) := by
                apply find?_updFirst_of_key_nodup hnd hp
                intro y
                rfl
              rw [verifyStep_eq hmacB64 now2 uuid refId sig _ _ hp2 hsig]
              dsimp only
              dsimp only [DB.mapPayment, DB.mapBooking, DB.mapRoom]
              rw [hb2]
              dsimp only
              rw [if_neg ht1, if_pos ht2, if_pos happ]
              dsimp only
              refine ⟨?_, ?_, ?_⟩
              · apply updFirst_twice <;> intro y <;> rfl
              · apply updFirst_twice <;> intro y <;> rfl
              · apply map_updFirst_twice <;> intro y <;> rfl
            · rw [if_neg happ]
              have hp2 : ((s.mapPayment p.id (fun q =>
                  { q with status := .completed, esewaRefId := some refId,
                           esewaSignature := some sig,
                           completedAt := some now1 })).findPaymentByUuid uuid) =
                  some
                    ({ p with status := .completed, esewaRefId := some refId,
                              esewaSignature := some sig, completedAt := some now1 }) := by
                apply find?_updFirst_of_key_nodup hnd hp
                intro y
                rfl
              rw [verifyStep_eq hmacB64 now2 uuid refId sig _ _ hp2 hsig]
              dsimp only
              dsimp only [DB.mapPayment]
              rw [hb]
              dsimp only
              rw [if_neg ht1, if_pos ht2, if_neg happ]
              dsimp only
              refine ⟨rfl, rfl, ?_⟩
              apply map_updFirst_twice <;> intro y <;> rfl
          · rw [if_neg ht1, if_neg ht2]
            have hp2 : ((s.mapPayment p.id (fun q =>
                { q with status := .completed, esewaRefId := some refId,
                         esewaSignature := some sig,
                         completedAt := some now1 })).findPaymentByUuid uuid) =
                some
                  ({ p with status := .completed, esewaRefId := some refId,
                            esewaSignature := some sig, completedAt := some now1 }) := by
              apply find?_updFirst_of_key_nodup hnd hp
              intro y
              rfl
            rw [verifyStep_eq hmacB64 now2 uuid refId sig _ _ hp2 hsig]
            dsimp only
            dsimp only [DB.mapPayment]
            rw [hb]
            dsimp only
            rw [if_neg ht1, if_neg ht2]
            dsimp only
            refine ⟨rfl, rfl, ?_⟩
            apply map_updFirst_twice <;> intro y <;> rfl

/-- C1, amended: approval and deposit-payment completion do *not*
commute.  For a Pending booking, its landlord, its room, and a stored
security-deposit (or advance) payment whose signature verifies, running
`approve_booking` and then `verify_payment` ends with the booking
Approved, tenancy Active and the room Occupied — but running
`verify_payment` first and `approve_booking` second ends with tenancy
Pending and the room merely Reserved: the Active/Occupied transition
fires only when the callback lands on an already-Approved booking, so
the "second action to complete" does not trigger it in general. -/
theorem C1_order_dependent_final_state
    (hmacB64 : String → String → String) (t1 t2 : Nat)
    (uuid refId sig : String) (s : DB) (p : Payment) (landlord : User)
    (b : Booking) (r : Room)
    (hp : s.findPaymentByUuid uuid = some p)
    (htype : p.paymentType = "security_deposit" ∨ p.paymentType = "advance")
    (hl : s.findUserByTypes "landlord" "LANDLORD" = some landlord)
    (hb : s.findBooking p.bookingId = some b)
    (hown : b.landlordId = landlord.id)
    (hpend : b.status = BookingStatus.pending)
    (hr : s.findRoom b.roomId = some r)
    (hsig : verify_signature hmacB64 TEST_SECRET_KEY sig p.amount uuid
      TEST_PRODUCT_CODE = true) :
    ((verifyStep hmacB64 t2 uuid refId sig
        (approveStep t1 p.bookingId s)).findBooking p.bookingId).map
        (fun x => (x.status, x.tenancyStatus)) =
      some (BookingStatus.approved, some TenancyStatus.active) ∧
    ((verifyStep hmacB64 t2 uuid refId sig
        (approveStep t1 p.bookingId s)).findRoom b.roomId).map Room.status =
      some RoomStatus.occupied ∧
    ((approveStep t1 p.bookingId
        (verifyStep hmacB64 t2 uuid refId sig s)).findBooking p.bookingId).map
        (fun x => (x.status, x.tenancyStatus)) =
      some (BookingStatus.approved, some TenancyStatus.pending) ∧
    ((approveStep t1 p.bookingId
        (verifyStep hmacB64 t2 uuid refId sig s)).findRoom b.roomId).map
        Room.status = some RoomStatus.reserved := by
  have hbid : b.id = p.bookingId := by simpa using List.find?_some hb
  have hb0 : s.bookings.find? (fun x => x.id == p.bookingId) = some b := hb
  have hr0 : s.rooms.find? (fun x => x.id == b.roomId) = some r := hr
  have ht1 : ¬ p.paymentType = "booking_payment" := by
    rcases htype with h | h <;> simp [h]
  rw [approveStep_eq t1 p.bookingId s landlord b hl hb hown hpend]
  have hpA : ((s.mapBooking p.bookingId (fun x =>
      { x with status := .approved, tenancyStatus := some .pending,
               approvedAt := some t1 })).mapRoom b.roomId
      (fun rr => { rr with status := .reserved })).findPaymentByUuid uuid =
      some p := hp
  rw [verifyStep_eq hmacB64 t2 uuid refId sig _ _ hpA hsig]
  dsimp only
  dsimp only [DB.mapBooking, DB.mapRoom, DB.mapPayment, DB.findBooking,
    DB.findRoom]
  have hbb : (updFirst (fun x : Booking => x.id == p.bookingId) (fun x =>
      { x with status := BookingStatus.approved,
               tenancyStatus := some TenancyStatus.pending,
               approvedAt := some t1 }) s.bookings).find?
      (fun x => x.id == p.bookingId) =
      some
        ({ b with status := BookingStatus.approved,
                  tenancyStatus := some TenancyStatus.pending,
                  approvedAt := some t1 }) := by
    apply find?_updFirst_self hb0
    intro y
    rfl
  rw [hbb]
  dsimp only
  rw [if_neg ht1, if_pos htype, if_pos rfl]
  rw [hbid]
  have hbb2 : (updFirst (fun x : Booking => x.id == p.bookingId) (fun x =>
      { x with tenancyStatus := some TenancyStatus.active })
      (updFirst (fun x : Booking => x.id == p.bookingId) (fun x =>
        { x with status := BookingStatus.approved,
                 tenancyStatus := some TenancyStatus.pending,
                 approvedAt := some t1 }) s.bookings)).find?
      (fun x => x.id == p.bookingId) =
      some
        ({ b with status := BookingStatus.approved,
                  tenancyStatus := some TenancyStatus.active,
                  approvedAt := some t1 }) := by
    apply find?_updFirst_self hbb
    intro y
    rfl
  have hrr : (updFirst (fun x : Room => x.id == b.roomId) (fun x =>
      { x with status := RoomStatus.reserved }) s.rooms).find?
      (fun x => x.id == b.roomId) =
      some ({ r with status := RoomStatus.reserved }) := by
    apply find?_updFirst_self hr0
    intro y
    rfl
  have hrr2 : (updFirst (fun x : Room => x.id == b.roomId) (fun x =>
      { x with status := RoomStatus.occupied })
      (updFirst (fun x : Room => x.id == b.roomId) (fun x =>
        { x with status := RoomStatus.reserved }) s.rooms)).find?
      (fun x => x.id == b.roomId) =
      some ({ r with status := RoomStatus.occupied }) := by
    apply find?_updFirst_self hrr
    intro y
    rfl
  rw [verifyStep_eq hmacB64 t2 uuid refId sig s p hp hsig]
  dsimp only
  rw [hb0]
  dsimp only
  rw [if_neg ht1, if_pos htype, if_neg (by simp [hpend])]
  have hl1 : (s.mapPayment p.id (fun q =>
      { q with status := .completed, esewaRefId := some refId,
               esewaSignature := some sig,
               completedAt := some t2 })).findUserByTypes "landlord"
      "LANDLORD" = some landlord := hl
  have hb1 : (s.mapPayment p.id (fun q =>
      { q with status := .completed, esewaRefId := some refId,
               esewaSignature := some sig,
               completedAt := some t2 })).findBooking p.bookingId = some b := hb
  rw [approveStep_eq t1 p.bookingId _ landlord b hl1 hb1 hown hpend]
  dsimp only [DB.mapBooking, DB.mapRoom, DB.mapPayment, DB.findBooking,
    DB.findRoom]
  refine ⟨?_, ?_, ?_, ?_⟩
  · rw [hbb2]
    rfl
  · rw [hrr2]
    rfl
  · rw [hbb]
    rfl
  · rw [hrr]
    rfl

/-- The amended C1 theorem on the concrete state `dbC1`: approving then
verifying the deposit yields Approved/Active/Occupied, while verifying
then approving yields Approved/Pending/Reserved. -/
theorem C1_order_dependent_final_state_witness :
    ((verifyStep idHmac 20 "uuid-sd" "ref-1"
        "total_amount=5000,transaction_uuid=uuid-sd,product_code=EPAYTEST"
        (approveStep 10 paymentC1.bookingId dbC1)).findBooking
        paymentC1.bookingId).map (fun x => (x.status, x.tenancyStatus)) =
      some (BookingStatus.approved, some TenancyStatus.active) ∧
    ((verifyStep idHmac 20 "uuid-sd" "ref-1"
        "total_amount=5000,transaction_uuid=uuid-sd,product_code=EPAYTEST"
        (approveStep 10 paymentC1.bookingId dbC1)).findRoom
        bookingC1.roomId).map Room.status = some RoomStatus.occupied ∧
    ((approveStep 10 paymentC1.bookingId
        (verifyStep idHmac 20 "uuid-sd" "ref-1"
          "total_amount=5000,transaction_uuid=uuid-sd,product_code=EPAYTEST"
          dbC1)).findBooking paymentC1.bookingId).map
        (fun x => (x.status, x.tenancyStatus)) =
      some (BookingStatus.approved, some TenancyStatus.pending) ∧
    ((approveStep 10 paymentC1.bookingId
        (verifyStep idHmac 20 "uuid-sd" "ref-1"
          "total_amount=5000,transaction_uuid=uuid-sd,product_code=EPAYTEST"
          dbC1)).findRoom bookingC1.roomId).map Room.status =
      some RoomStatus.reserved :=
  C1_order_dependent_final_state idHmac 10 20 "uuid-sd" "ref-1"
    "total_amount=5000,transaction_uuid=uuid-sd,product_code=EPAYTEST"
    dbC1 paymentC1 landlord0 bookingC1 roomC1 (by decide) (Or.inl (by decide))
    (by decide) (by decide) (by decide) (by decide) (by decide) (by decide)

/-- The amended C2 theorem at the concrete initiated state: re-delivering
the deposit callback with a later clock leaves the bookings and rooms
exactly as after the first delivery, and the payment rows agree once
`completed_at` is disregarded. -/
theorem C2_reverify_idempotent_except_completedAt_witness :
    (verifyStep idHmac 21 "uuid-2" "ref-1" sdSig
        (verifyStep idHmac 20 "uuid-2" "ref-1" sdSig dbInitiated)).bookings =
      (verifyStep idHmac 20 "uuid-2" "ref-1" sdSig dbInitiated).bookings ∧
    (verifyStep idHmac 21 "uuid-2" "ref-1" sdSig
        (verifyStep idHmac 20 "uuid-2" "ref-1" sdSig dbInitiated)).rooms =
      (verifyStep idHmac 20 "uuid-2" "ref-1" sdSig dbInitiated).rooms ∧
    (verifyStep idHmac 21 "uuid-2" "ref-1" sdSig
        (verifyStep idHmac 20 "uuid-2" "ref-1" sdSig dbInitiated)).payments.map
        (fun q => { q with completedAt := none }) =
      (verifyStep idHmac 20 "uuid-2" "ref-1" sdSig dbInitiated).payments.map
        (fun q => { q with completedAt := none }) :=
  C2_reverify_idempotent_except_completedAt idHmac 20 21 "uuid-2" "ref-1" sdSig
    dbInitiated (by decide)

end Roombox
